import Mathlib

/-!
Verification of the appointment-booking backend.

The backend exists in two variants with shared logic:
`src/api/[...all].js` (serverless adapter, pooled connection) and
`src/appointment-database/index.js` (persistent listener, single connection).
This development shallowly embeds the route handlers and their SQL-level data
access as pure functions over an explicit database state.  Times of day are,
as in the source, carried as `"HH:MM"` / `"HH:MM:SS"` strings and compared
with JavaScript's lexicographic string comparison; dates are `"YYYY-MM-DD"`
strings parsed on demand.  The SQL statements are embedded as list operations
over row structures mirroring the storage layout
(`appointments`, `business_hours`, `holiday_hours`).
-/

namespace AB

/-! ## JavaScript string primitives -/

/-- The digit character class `\d` of the source's regexes: `[0-9]`. -/
def isDigitCh (c : Char) : Bool := 48 ≤ c.toNat && c.toNat ≤ 57

/-- JavaScript's `<` on strings: lexicographic comparison of code units
(our sources are ASCII, where code units and code points agree). -/
def charsLt : List Char → List Char → Bool
  | [], [] => false
  | [], _ :: _ => true
  | _ :: _, [] => false
  | a :: as, b :: bs =>
    if a.toNat < b.toNat then true
    else if b.toNat < a.toNat then false
    else charsLt as bs

/-- JavaScript `a < b` on strings. -/
def jsStrLt (a b : String) : Bool := charsLt a.data b.data

/-- JavaScript `a <= b` on strings (`!(b < a)`). -/
def jsStrLe (a b : String) : Bool := !jsStrLt b a

/-- The digit character of a value `n < 10`. -/
def digitCh (n : Nat) : Char := Char.ofNat (48 + n)

/-- Numeric value of a digit string, as JavaScript's `Number` computes it on
all-digit input (the only inputs the handlers feed it). -/
def digitsVal (cs : List Char) : Nat := cs.foldl (fun a c => a * 10 + (c.toNat - 48)) 0

/-- `String.prototype.split(sep)` for a one-character separator, on the
character list of the string. -/
def splitChAux (sep : Char) : List Char → List Char → List (List Char)
  | [], acc => [acc.reverse]
  | c :: rest, acc =>
    if c = sep then acc.reverse :: splitChAux sep rest []
    else splitChAux sep rest (c :: acc)

/-- `s.split(sep)` (JavaScript) as a list of character lists. -/
def splitCh (sep : Char) (s : String) : List (List Char) := splitChAux sep s.data []

/-- `s.padStart(k, "0")` (JavaScript). -/
def padZeros (k : Nat) (s : String) : String :=
  if k ≤ s.length then s else String.mk (List.replicate (k - s.length) '0') ++ s

/-- `String(n).padStart(2, "0")` of the source's `addMinutesHHMM`. -/
def fmt2 (n : Nat) : String := padZeros 2 (toString n)

/-- The `"HH:MM"` string the source's `addMinutesHHMM` produces from a total
minute count: `Math.floor(total/60)` hours and `total % 60` minutes, each
zero-padded to two characters. -/
def fmtHHMM (total : Nat) : String := fmt2 (total / 60) ++ ":" ++ fmt2 (total % 60)

/-- Minute value of an `"HH:MM"` string read the way `addMinutesHHMM` does:
`split(":")`, `Number` on the first two parts, `H * 60 + M`. -/
def hhmmVal (s : String) : Nat :=
  let parts := splitCh ':' s
  60 * digitsVal (parts.getD 0 []) + digitsVal (parts.getD 1 [])

/-- `addMinutesHHMM(hhmm, mins)` of both backend variants. -/
def addMinutesHHMM (hhmm : String) (mins : Nat) : String := fmtHHMM (hhmmVal hhmm + mins)

/-- `toHHMM(timeStr)` of the source: `String(timeStr || "").slice(0, 5)`. -/
def toHHMM (s : String) : String := String.mk (s.data.take 5)

/-- Seconds-of-day value of a MySQL `TIME` literal `"HH:MM"` or `"HH:MM:SS"`,
used to embed the SQL conflict condition `TIME(?) < ADDTIME(time, SEC_TO_TIME(duration*60))`
(well-formed time strings only ever reach it). -/
def sqlTimeSec (s : String) : Nat :=
  let parts := splitCh ':' s
  3600 * digitsVal (parts.getD 0 []) + 60 * digitsVal (parts.getD 1 [])
    + digitsVal (parts.getD 2 [])

/-- `onlyDigits(s)` of the source: `String(s).replace(/\D/g, "")`. -/
def onlyDigits (s : String) : String := String.mk (s.data.filter isDigitCh)

/-- `normalizeNANPTo10(raw)` of the source: strip non-digits; accept exactly
10 digits, or 11 digits starting with `"1"` with the `"1"` dropped
(`d.slice(1)`); otherwise `null`. -/
def normalizeNANPTo10 (raw : String) : Option String :=
  let d := onlyDigits raw
  if d.length = 10 then some d
  else if d.length = 11 ∧ d.data.head? = some '1' then some (String.mk (d.data.drop 1))
  else none

/-- `isISODate(s)` of the source: the regex `^\d{4}-\d{2}-\d{2}$`. -/
def isISODate (s : String) : Bool :=
  match s.data with
  | [y1, y2, y3, y4, s1, m1, m2, s2, d1, d2] =>
    isDigitCh y1 && isDigitCh y2 && isDigitCh y3 && isDigitCh y4 && s1 == '-' &&
    isDigitCh m1 && isDigitCh m2 && s2 == '-' && isDigitCh d1 && isDigitCh d2
  | _ => false

/-- The regex `^\d{2}:\d{2}$` applied by `POST /api/BookAppointment` to the
sliced start time. -/
def isHHMMstr (s : String) : Bool :=
  match s.data with
  | [a, b, c, d, e] => isDigitCh a && isDigitCh b && c == ':' && isDigitCh d && isDigitCh e
  | _ => false

/-- `normalizeTimeHHMMSS(t)` of the source: falsy input or input not matching
`^\d{2}:\d{2}(:\d{2})?$` gives `null`; `"HH:MM"` becomes `"HH:MM:00"`;
`"HH:MM:SS"` is returned unchanged. -/
def normalizeTimeHHMMSS (t : String) : Option String :=
  if t == "" then none
  else match t.data with
  | [a, b, c, d, e] =>
    if isDigitCh a && isDigitCh b && c == ':' && isDigitCh d && isDigitCh e then
      some (t ++ ":00")
    else none
  | [a, b, c, d, e, f, g, h] =>
    if isDigitCh a && isDigitCh b && c == ':' && isDigitCh d && isDigitCh e &&
       f == ':' && isDigitCh g && isDigitCh h then
      some t
    else none
  | _ => none

/-- JavaScript truthiness of an optional string: `null`/`undefined` and `""`
are falsy. -/
def strFalsy : Option String → Bool
  | none => true
  | some s => s == ""

/-- JavaScript `s || null` for a string: `""` becomes `null`. -/
def jsOrNullStr (s : String) : Option String := if s == "" then none else some s

/-- JavaScript `x || null` for a nullable string. -/
def jsOrNullOpt : Option String → Option String
  | none => none
  | some s => if s == "" then none else some s

/-! ## Calendar dates -/

/-- A calendar date, the parsed form of a `"YYYY-MM-DD"` string (the system
only handles common-era dates). -/
structure YMD where
  y : Nat
  m : Nat
  d : Nat
deriving DecidableEq, Repr

/-- Gregorian leap-year rule. -/
def isLeap (y : Nat) : Bool := (y % 4 == 0 && y % 100 != 0) || y % 400 == 0

/-- Days in a month of the proleptic Gregorian calendar. -/
def daysInMonth (y m : Nat) : Nat :=
  if m = 2 then (if isLeap y then 29 else 28)
  else if m = 4 ∨ m = 6 ∨ m = 9 ∨ m = 11 then 30 else 31

/-- A real calendar date: month 1–12, day within the month. -/
def validYMD (x : YMD) : Bool :=
  1 ≤ x.m && x.m ≤ 12 && 1 ≤ x.d && x.d ≤ daysInMonth x.y x.m

/-- Digits of a `"YYYY-MM-DD"` string, without calendar validation. -/
def parseISOYMD (s : String) : Option YMD :=
  match s.data with
  | [y1, y2, y3, y4, s1, m1, m2, s2, d1, d2] =>
    if isDigitCh y1 && isDigitCh y2 && isDigitCh y3 && isDigitCh y4 && s1 == '-' &&
       isDigitCh m1 && isDigitCh m2 && s2 == '-' && isDigitCh d1 && isDigitCh d2 then
      some ⟨digitsVal [y1, y2, y3, y4], digitsVal [m1, m2], digitsVal [d1, d2]⟩
    else none
  | _ => none

/-- `new Date("YYYY-MM-DDT00:00:00")` as the source uses it: a real calendar
date parses, anything else (including digit strings such as month `13`) is an
Invalid Date, modelled as `none`.  MySQL coerces a `"YYYY-MM-DD"` query
parameter to a `DATE` under the same validity rule, so this also embeds the
date parameters of the SQL statements. -/
def jsParseDate (s : String) : Option YMD :=
  match parseISOYMD s with
  | some x => if validYMD x then some x else none
  | none => none

/-- Day count of a date (proleptic Gregorian, days since 0000-03-01), used to
embed MySQL `DATEDIFF` and JavaScript `Date.prototype.getDay`. -/
def ymdToDays (x : YMD) : Nat :=
  let y := if x.m ≤ 2 then x.y - 1 else x.y
  let mp := if x.m ≤ 2 then x.m + 9 else x.m - 3
  let doy := (153 * mp + 2) / 5 + (x.d - 1)
  365 * y + y / 4 - y / 100 + y / 400 + doy

/-- MySQL `DATEDIFF(a, b)` in days. -/
def datediff (a b : YMD) : Int := (ymdToDays a : Int) - (ymdToDays b : Int)

/-- SQL `a <= b` on `DATE` values. -/
def ymdLeB (a b : YMD) : Bool :=
  a.y < b.y || (a.y == b.y && (a.m < b.m || (a.m == b.m && a.d ≤ b.d)))

/-- `Date.prototype.getDay()`: 0 = Sunday … 6 = Saturday. -/
def jsGetDay (x : YMD) : Nat := (ymdToDays x + 3) % 7

/-- `jsWeekdayMonday1to7(dateISO)` of the source: Monday = 1 … Sunday = 7;
an invalid date yields `NaN` in the source, which matches no
`business_hours.week_day`, modelled as `none`. -/
def jsWeekdayMonday1to7 (s : String) : Option Nat :=
  (jsParseDate s).map (fun x => let n := jsGetDay x; if n = 0 then 7 else n)

/-- A local date-time at second precision (the handlers compare appointment
date-times against `new Date()` at least this finely). -/
structure LocalDT where
  date : YMD
  sec : Nat
deriving DecidableEq, Repr

/-- `a < b` on date-times. -/
def ldtLtB (a b : LocalDT) : Bool :=
  (a.date.y < b.date.y || (a.date.y == b.date.y && (a.date.m < b.date.m ||
    (a.date.m == b.date.m && a.date.d < b.date.d)))) ||
  (a.date == b.date && a.sec < b.sec)

/-- `new Date("YYYY-MM-DDTHH:MM")` (and, with `":00"` appended, of
`"...THH:MM:SS"`): valid when the date is real and the time is a real clock
time (ECMA-262 also admits exactly `24:00`); otherwise an Invalid Date,
modelled as `none`. -/
def jsParseDateTime (dateS timeS : String) : Option LocalDT :=
  match jsParseDate dateS with
  | none => none
  | some x =>
    match timeS.data with
    | [a, b, c, d, e] =>
      if isDigitCh a && isDigitCh b && c == ':' && isDigitCh d && isDigitCh e then
        let h := digitsVal [a, b]
        let mi := digitsVal [d, e]
        if (h ≤ 23 ∧ mi ≤ 59) ∨ (h = 24 ∧ mi = 0) then some ⟨x, 3600 * h + 60 * mi⟩
        else none
      else none
    | _ => none

/-! ## Storage layout

Row structures mirror the inferred relational schema.  `appointments.date` is
kept as the `"YYYY-MM-DD"` string the validated requests supply (the SQL
equality `date = ?` then coincides with string equality);
`holiday_hours` dates are `DATE` values, i.e. parsed `YMD`.  Booleans stored
as `TINYINT` are kept as the numerals `0`/`1` the handlers compare against. -/

/-- A row of `appointments`.  The column `type` is called `typ` here (`type`
is reserved); durations are naturals since every accepted write stores 30
or 60. -/
structure ApptRow where
  id : Nat
  name : String
  phoneNumber : Option String
  email : Option String
  date : String
  time : String
  duration : Nat
  typ : String
  comments : Option String
  active : Nat
  paid : Nat
deriving DecidableEq, Repr

/-- A row of `business_hours` (`week_day` is the unique key). -/
structure BizRow where
  week_day : Nat
  start_time : Option String
  end_time : Option String
  is_open : Nat
deriving DecidableEq, Repr

/-- A row of `holiday_hours`. -/
structure HolidayRow where
  id : Nat
  start_date : YMD
  end_date : Option YMD
  holiday : String
  comment : Option String
  is_open : Nat
  start_time : Option String
  end_time : Option String
deriving DecidableEq, Repr

/-- The database state the embedded handlers act on (the tables the claims
concern, plus the auto-increment counters). -/
structure Db where
  appts : List ApptRow
  nextApptId : Nat
  biz : List BizRow
  holidays : List HolidayRow
  nextHolidayId : Nat
deriving DecidableEq, Repr

/-- A session user as stored by `POST /auth/login`. -/
structure User where
  id : Nat
  email : String
  role : String
deriving DecidableEq, Repr

/-! ## Holiday-override lookup (shared by availability and holiday-info)

```
WHERE start_date <= ? AND COALESCE(end_date, start_date) >= ?
ORDER BY (COALESCE(end_date, start_date) = start_date) DESC,
         DATEDIFF(COALESCE(end_date, start_date), start_date) ASC,
         id ASC
LIMIT 1
```
`ORDER BY … LIMIT 1` over the key below; `id` is a primary key, so the
minimum is unique and the embedding as a fold over the qualifying rows is
deterministic. -/

/-- `COALESCE(end_date, start_date)`. -/
def hrEffEnd (r : HolidayRow) : YMD := r.end_date.getD r.start_date

/-- Range containment of the requested date. -/
def hrQualifiesB (d : YMD) (r : HolidayRow) : Bool :=
  ymdLeB r.start_date d && ymdLeB d (hrEffEnd r)

/-- The `ORDER BY` key: single-day overrides first (the boolean sorts
descending, so single-day = 0 here), then the day span, then the id. -/
def hrKey (r : HolidayRow) : Nat × Int × Nat :=
  ((if hrEffEnd r = r.start_date then 0 else 1), datediff (hrEffEnd r) r.start_date, r.id)

/-- Strict lexicographic order on the key. -/
def keyLtB (a b : Nat × Int × Nat) : Bool :=
  a.1 < b.1 || (a.1 == b.1 && (a.2.1 < b.2.1 || (a.2.1 == b.2.1 && a.2.2 < b.2.2)))

/-- One step of the key-minimum fold. -/
def pickStep (acc : Option HolidayRow) (r : HolidayRow) : Option HolidayRow :=
  match acc with
  | none => some r
  | some a => if keyLtB (hrKey r) (hrKey a) then some r else some a

/-- First row in `ORDER BY` order: the key-minimal element. -/
def pickMinBy (rs : List HolidayRow) : Option HolidayRow := rs.foldl pickStep none

/-- The full `holidaySql` lookup for a request date string (an unreal date
such as month 13 passes `isISODate` but matches no `DATE`). -/
def holidayLookup (hs : List HolidayRow) (dateS : String) : Option HolidayRow :=
  match jsParseDate dateS with
  | none => none
  | some d => pickMinBy (hs.filter (hrQualifiesB d))

/-! ## GET /api/availability -/

/-- The holiday annotation fields spread into an availability response. -/
structure AvailMeta where
  holidayLabel : Option String
  holidayComment : Option String
  isOpenOverride : Bool
deriving DecidableEq, Repr

/-- Response of `GET /api/availability`.  In `ok`, the three trailing fields
are `none` when the JSON key is absent (no meta was spread). -/
inductive AvailResp where
  | badDate
  | ok (date : String) (slotMinutes : Nat) (times : List String)
      (holidayLabel : Option (Option String)) (holidayComment : Option (Option String))
      (isOpenOverride : Option Bool)
deriving DecidableEq, Repr

/-- HTTP status of an availability response. -/
def availStatus : AvailResp → Nat
  | .badDate => 400
  | .ok _ _ _ _ _ _ => 200

/-- `res.json({date, slotMinutes, times, ...(meta || {})})`. -/
def availOk (date : String) (slot : Nat) (times : List String) (m : Option AvailMeta) : AvailResp :=
  match m with
  | none => .ok date slot times none none none
  | some mm => .ok date slot times (some mm.holidayLabel) (some mm.holidayComment) (some mm.isOpenOverride)

/-- `Math.max(5, parseInt(req.query.slotMinutes, 10) || 30)`; the argument is
the `parseInt` result (`none` for `NaN`). -/
def slotMinutesNat (q : Option Int) : Nat :=
  max 5 (match q with | none => (30 : Int) | some v => if v = 0 then 30 else v).toNat

/-- Fuel for the candidate loop.  The source loop steps by at least 5 minutes
from a clock time, so within the domain of the theorems below it runs at most
288 iterations; 512 strictly bounds that. -/
def slotLoopFuel : Nat := 512

/-- The candidate loop of `handleWithWindow`:
`for (let t = start; addMinutesHHMM(t, slotMinutes) <= end; t = addMinutesHHMM(t, slotMinutes)) candidates.push(t)`
— note the `<=` is JavaScript string comparison. -/
def slotLoop (endS : String) (slot : Nat) : Nat → String → List String
  | 0, _ => []
  | fuel + 1, t =>
    if jsStrLe (addMinutesHHMM t slot) endS then
      t :: slotLoop endS slot fuel (addMinutesHHMM t slot)
    else []

/-- The handler's today test:
`new Date(date + "T00:00:00").toDateString() === now.toDateString()` — local
calendar-date equality, false for an Invalid Date. -/
def availIsToday (now : LocalDT) (date : String) : Bool :=
  match jsParseDate date with
  | some x => x == now.date
  | none => false

/-- `handleWithWindow(startTimeStr, endTimeStr, meta)` of the availability
handler, including the today filter and the overlap filter against the
appointments of the date. -/
def handleWithWindow (db : Db) (now : LocalDT) (date : String) (slot : Nat)
    (startTimeStr endTimeStr : Option String) (meta : Option AvailMeta) : AvailResp :=
  if strFalsy startTimeStr || strFalsy endTimeStr then availOk date slot [] meta
  else
    let start := toHHMM (startTimeStr.getD "")
    let endS := toHHMM (endTimeStr.getD "")
    let candidates := slotLoop endS slot slotLoopFuel start
    let future := if availIsToday now date then
        candidates.filter fun t =>
          match jsParseDateTime date t with
          | some dt => ldtLtB now dt
          | none => false
      else candidates
    if future.isEmpty then availOk date slot [] meta
    else
      let existing := (db.appts.filter fun r => r.date == date).map
        fun r => (toHHMM r.time, addMinutesHHMM (toHHMM r.time) r.duration)
      let free := future.filter fun t =>
        let endT := addMinutesHHMM t slot
        existing.all fun ex => !(jsStrLt t ex.2 && jsStrLt ex.1 endT)
      availOk date slot free meta

/-- The weekly-hours branch: weekday lookup (`SELECT start_time, end_time
FROM business_hours WHERE week_day = ? LIMIT 1`), empty times when no row
matches. -/
def availBizBranch (db : Db) (now : LocalDT) (date : String) (slot : Nat) : AvailResp :=
  let row : Option BizRow := match jsWeekdayMonday1to7 date with
    | none => none
    | some w => db.biz.find? fun r => r.week_day == w
  match row with
  | none => availOk date slot [] none
  | some r => handleWithWindow db now date slot r.start_time r.end_time none

/-- `GET /api/availability`.  `slotMinutes` and `excludeId` carry the
`parseInt` results of the raw query strings (`none` = `NaN`); `excludeId` is
parsed and then never used (source lines 157–159). -/
def availability (db : Db) (now : LocalDT) (date : String)
    (slotMinutesQ excludeIdQ : Option Int) : AvailResp :=
  let slot := slotMinutesNat slotMinutesQ
  let _excludeId : Option Int := match excludeIdQ with
    | some v => some v
    | none => none
  if !isISODate date then .badDate
  else
    match holidayLookup db.holidays date with
    | some r =>
      if r.is_open = 0 then
        availOk date slot [] (some ⟨jsOrNullStr r.holiday, jsOrNullOpt r.comment, false⟩)
      else if r.is_open = 1 then
        handleWithWindow db now date slot r.start_time r.end_time
          (some ⟨jsOrNullStr r.holiday, jsOrNullOpt r.comment, true⟩)
      else availBizBranch db now date slot
    | none => availBizBranch db now date slot

/-! ## GET /api/holiday-info (both deployment variants) -/

/-- Response of `GET /api/holiday-info`. -/
inductive HolidayInfoResp where
  | badDate
  | dbError
  | absent
  | found (holiday : String) (comment : Option String) (is_open : Bool)
      (start_time end_time : Option String)
deriving DecidableEq, Repr

/-- HTTP status of a holiday-info response. -/
def holidayInfoStatus : HolidayInfoResp → Nat
  | .badDate => 400
  | .dbError => 500
  | _ => 200

/-- `GET /api/holiday-info` of the serverless variant
(`src/api/[...all].js` lines 797–831): the ranged priority lookup,
`DATE_FORMAT(start_time, '%H:%i')` shown as minute precision. -/
def holidayInfoServerless (hs : List HolidayRow) (dateS : String) : HolidayInfoResp :=
  if !isISODate dateS then .badDate
  else
    match holidayLookup hs dateS with
    | none => .absent
    | some r =>
      .found r.holiday r.comment (r.is_open = 1) (r.start_time.map toHHMM) (r.end_time.map toHHMM)

/-- The query of the persistent-listener variant's `GET /api/holiday-info`
(`src/appointment-database/index.js` lines 801–810):
`SELECT … FROM holiday_hours WHERE date = ? LIMIT 1`.  The `holiday_hours`
schema (see `HolidayRow`) has no column named `date`, so MySQL rejects the
statement with an unknown-column error on every execution, regardless of the
stored rows or the parameter. -/
def listenerHolidayQuery (_hs : List HolidayRow) (_dateS : String) :
    Except String (List HolidayRow) :=
  .error "ER_BAD_FIELD_ERROR"

/-- `GET /api/holiday-info` of the persistent-listener variant: a query error
is mapped to 500 `{error: "Database error"}`. -/
def holidayInfoListener (hs : List HolidayRow) (dateS : String) : HolidayInfoResp :=
  if !isISODate dateS then .badDate
  else
    match listenerHolidayQuery hs dateS with
    | .error _ => .dbError
    | .ok rows =>
      match rows.head? with
      | none => .absent
      | some r =>
        .found r.holiday r.comment (r.is_open = 1) (r.start_time.map toHHMM) (r.end_time.map toHHMM)

/-! ## POST /api/BookAppointment -/

/-- Request body of the booking endpoint.  `duration` is carried as the
natural its JSON number denotes (any value outside `{30, 60}` is rejected by
the handler exactly as in the source). -/
structure BookReq where
  name : String
  phoneNumber : Option String
  email : Option String
  date : String
  time : String
  duration : Nat
  typ : String
  comments : Option String
deriving DecidableEq, Repr

/-- A `{status, message}` JSON response. -/
structure MsgResp where
  status : Nat
  message : String
deriving DecidableEq, Repr

/-- The conflict query of the booking endpoint:
```
SELECT id FROM appointments
WHERE date = ? AND TIME(?) < ADDTIME(time, SEC_TO_TIME(duration*60))
  AND ADDTIME(TIME(?), SEC_TO_TIME(?*60)) > time
LIMIT 1
```
nonempty iff some row on the date overlaps the half-open request interval. -/
def bookConflictB (appts : List ApptRow) (date startHHMM : String) (dur : Nat) : Bool :=
  appts.any fun r =>
    r.date == date &&
    sqlTimeSec startHHMM < sqlTimeSec r.time + r.duration * 60 &&
    sqlTimeSec startHHMM + dur * 60 > sqlTimeSec r.time

/-- The row the booking insert creates (`active = 1`, `paid = 0`,
`time = startHHMM + ":00"`, auto-assigned id). -/
def mkBookRow (db : Db) (req : BookReq) (phone10 : Option String) (startHHMM : String) : ApptRow :=
  { id := db.nextApptId, name := req.name, phoneNumber := phone10,
    email := jsOrNullOpt req.email, date := req.date, time := startHHMM ++ ":00",
    duration := req.duration, typ := req.typ, comments := jsOrNullOpt req.comments,
    active := 1, paid := 0 }

/-- The conflict-check-then-insert tail of the booking handler, reached once
every validation has passed. -/
def bookAfterValidation (db : Db) (req : BookReq) (phone10 : Option String)
    (startHHMM : String) : MsgResp × Db :=
  if bookConflictB db.appts req.date startHHMM req.duration then
    (⟨409, "Time conflict with another appointment"⟩, db)
  else
    (⟨200, "Appointment saved successfully"⟩,
     { db with appts := db.appts ++ [mkBookRow db req phone10 startHHMM],
               nextApptId := db.nextApptId + 1 })

/-- The `phone10` computation shared by booking and admin update: `null`
when no phone is supplied (or it is `""`), otherwise the NANP
normalization. -/
def reqPhone10 (phoneNumber : Option String) : Option String :=
  if strFalsy phoneNumber then none else normalizeNANPTo10 (phoneNumber.getD "")

/-- The booking handler's past test
`new Date(date + "T" + startHHMM) < new Date()`: false for an Invalid Date
(`NaN` comparisons are false in JavaScript). -/
def bookPastCheck (now : LocalDT) (req : BookReq) : Bool :=
  match jsParseDateTime req.date (toHHMM req.time) with
  | none => false
  | some dt => ldtLtB dt now

/-- A booking request that passes the field validations: non-empty name and
type, duration 30 or 60, well-formed date and time patterns, and a phone
that is absent or normalizes. -/
def BookReqFieldsOk (req : BookReq) : Prop :=
  req.name ≠ "" ∧ req.typ ≠ "" ∧ (req.duration = 30 ∨ req.duration = 60) ∧
  isISODate req.date = true ∧ isHHMMstr (toHHMM req.time) = true ∧
  (strFalsy req.phoneNumber = true ∨ (normalizeNANPTo10 (req.phoneNumber.getD "")).isSome = true)

/-- `POST /api/BookAppointment`.  The past check compares the constructed
date-time against `now`; an Invalid Date compares false, so such requests
fall through to `bookAfterValidation` (as in the source, where `NaN < now`
is false). -/
def bookAppointment (db : Db) (now : LocalDT) (req : BookReq) : MsgResp × Db :=
  if req.name == "" || req.date == "" || req.time == "" || req.duration == 0 || req.typ == "" then
    (⟨400, "Missing required fields"⟩, db)
  else if !(req.duration == 30 || req.duration == 60) then
    (⟨400, "Duration must be 30 or 60 minutes"⟩, db)
  else
    let phone10 := reqPhone10 req.phoneNumber
    if !strFalsy req.phoneNumber && phone10 == none then
      (⟨400, "Invalid phone number"⟩, db)
    else
      let startHHMM := toHHMM req.time
      if !(isHHMMstr startHHMM && isISODate req.date) then
        (⟨400, "Invalid date/time"⟩, db)
      else if bookPastCheck now req then
        (⟨400, "Appointment cannot be in the past"⟩, db)
      else bookAfterValidation db req phone10 startHHMM

/-! ## Admin middleware and endpoints -/

/-- Result of an admin-guarded endpoint: either a guard rejection
(`{message}` with status 401 or 403) or the wrapped handler's response. -/
inductive AdminResp (α : Type) where
  | fail (status : Nat) (message : String)
  | ok (a : α)
deriving DecidableEq, Repr

/-- `requireAuth` followed by `requireRole("admin")`: no session user gives
401 "Not authenticated", a user whose role is not exactly `"admin"` gives
403 "Forbidden"; only then does the handler body run. -/
def requireAdmin {α : Type} (session : Option User) (db : Db) (k : Db → α × Db) :
    AdminResp α × Db :=
  match session with
  | none => (.fail 401 "Not authenticated", db)
  | some u =>
    if u.role == "admin" then
      let r := k db
      (.ok r.1, r.2)
    else (.fail 403 "Forbidden", db)

/-- Request body of `PUT /api/appointments/:id`. `active`/`paid` are absent
or a truthiness already reduced to `Bool` (the source stores
`Number(x ? 1 : 0)`). -/
structure PutReq where
  name : String
  phoneNumber : Option String
  email : Option String
  date : String
  time : String
  duration : Nat
  typ : String
  comments : Option String
  active : Option Bool
  paid : Option Bool
deriving DecidableEq, Repr

/-- Response of `PUT /api/appointments/:id`: an error `{message}` or the
re-read row (200). -/
inductive PutResp where
  | err (status : Nat) (message : String)
  | okRow (row : Option ApptRow)
deriving DecidableEq, Repr

/-- The update's conflict query: as for booking but with `id <> ?`. -/
def putConflictB (appts : List ApptRow) (selfId : Int) (date startHHMM : String)
    (dur : Nat) : Bool :=
  appts.any fun r =>
    r.date == date && (r.id : Int) != selfId &&
    sqlTimeSec startHHMM < sqlTimeSec r.time + r.duration * 60 &&
    sqlTimeSec startHHMM + dur * 60 > sqlTimeSec r.time

/-- The `UPDATE appointments SET …` field list: name, email, date, time,
duration, type, comments always; phoneNumber only when a phone was supplied;
active/paid only when present in the body. -/
def applyPut (r : ApptRow) (req : PutReq) (phone10 : Option String) (startHHMM : String) :
    ApptRow :=
  { r with
    name := req.name, email := jsOrNullOpt req.email, date := req.date,
    time := startHHMM ++ ":00", duration := req.duration, typ := req.typ,
    comments := jsOrNullOpt req.comments,
    phoneNumber := match phone10 with | some p => some p | none => r.phoneNumber,
    active := match req.active with | none => r.active | some b => if b then 1 else 0,
    paid := match req.paid with | none => r.paid | some b => if b then 1 else 0 }

/-- The handler body of `PUT /api/appointments/:id` (inside the admin guard).
`apptId` is `Number(req.params.id)`.  Unlike booking, an Invalid Date is
rejected here with 400 "Invalid date/time" (`isNaN` check, source lines
338–342). -/
def putAppointmentBody (db : Db) (now : LocalDT) (apptId : Int) (req : PutReq) :
    PutResp × Db :=
  if !(0 < apptId) then (.err 400 "Invalid appointment id", db)
  else if req.name == "" || req.date == "" || req.time == "" || req.duration == 0 ||
      req.typ == "" then
    (.err 400 "Missing required fields", db)
  else if !(req.duration == 30 || req.duration == 60) then
    (.err 400 "Duration must be 30 or 60 minutes", db)
  else
    let phone10 := reqPhone10 req.phoneNumber
    if !strFalsy req.phoneNumber && phone10 == none then
      (.err 400 "Invalid phone number", db)
    else
      let startHHMM := toHHMM req.time
      match jsParseDateTime req.date startHHMM with
      | none => (.err 400 "Invalid date/time", db)
      | some dt =>
        if ldtLtB dt now then (.err 400 "Appointment cannot be in the past", db)
        else if putConflictB db.appts apptId req.date startHHMM req.duration then
          (.err 409 "Time conflict with another appointment", db)
        else
          let appts2 := db.appts.map fun r =>
            if (r.id : Int) == apptId then applyPut r req phone10 startHHMM else r
          (.okRow (appts2.find? fun r => (r.id : Int) == apptId),
           { db with appts := appts2 })

/-- `PUT /api/appointments/:id` with its admin guard. -/
def putAppointment (session : Option User) (db : Db) (now : LocalDT) (apptId : Int)
    (req : PutReq) : AdminResp PutResp × Db :=
  requireAdmin session db fun db => putAppointmentBody db now apptId req

/-- The filterable columns of `GET /api/appointments`. -/
def apptFilterKeys : List String :=
  ["id", "name", "phoneNumber", "email", "date", "time", "duration", "type",
   "comments", "active", "paid"]

/-- The value of an appointment column as the string MySQL's `column = ?`
comparison matches against the query parameter (numeric columns via their
canonical decimal form; `NULL` never equals anything). -/
def apptField (r : ApptRow) : String → Option String
  | "id" => some (toString r.id)
  | "name" => some r.name
  | "phoneNumber" => r.phoneNumber
  | "email" => r.email
  | "date" => some r.date
  | "time" => some r.time
  | "duration" => some (toString r.duration)
  | "type" => some r.typ
  | "comments" => r.comments
  | "active" => some (toString r.active)
  | "paid" => some (toString r.paid)
  | _ => none

/-- The `WHERE` clause built from the recognized query parameters
(unrecognized keys are skipped). -/
def apptMatches (q : List (String × String)) (r : ApptRow) : Bool :=
  q.all fun kv => if apptFilterKeys.contains kv.1 then apptField r kv.1 == some kv.2 else true

/-- `ORDER BY date ASC, time ASC` (ISO date and time strings order as their
values). -/
def apptLeB (a b : ApptRow) : Bool :=
  jsStrLt a.date b.date || (a.date == b.date && jsStrLe a.time b.time)

/-- Stable insertion into a sorted list. -/
def insertSortedBy {α : Type} (le : α → α → Bool) (x : α) : List α → List α
  | [] => [x]
  | y :: ys => if le x y then x :: y :: ys else y :: insertSortedBy le x ys

/-- Stable insertion sort (embeds SQL `ORDER BY`). -/
def sortListBy {α : Type} (le : α → α → Bool) : List α → List α
  | [] => []
  | x :: xs => insertSortedBy le x (sortListBy le xs)

/-- The handler body of `GET /api/appointments`: equality filters, ordering,
optional positive-integer `limit` (the `limit` value is the `Number(…)`
parse of the query string when that is a positive integer). -/
def listAppointmentsBody (db : Db) (q : List (String × String)) (limit : Option Nat) :
    List ApptRow :=
  let rows := sortListBy apptLeB (db.appts.filter (apptMatches q))
  match limit with
  | some l => if 0 < l then rows.take l else rows
  | none => rows

/-- `GET /api/appointments` with its admin guard. -/
def listAppointments (session : Option User) (db : Db) (q : List (String × String))
    (limit : Option Nat) : AdminResp (List ApptRow) × Db :=
  requireAdmin session db fun db => (listAppointmentsBody db q limit, db)

/-! ## Business-hours administration -/

/-- Response of the business-hours and holiday-hours write endpoints:
400 `{error}`, 404 `{error: "Not found"}`, 500 `{error}`, 200 `{ok:true}` or
200 `{ok:true, id}`. -/
inductive WriteResp where
  | badReq (error : String)
  | notFound
  | dbFail (error : String)
  | okTrue
  | okId (id : Nat)
deriving DecidableEq, Repr

/-- HTTP status of a write response. -/
def writeStatus : WriteResp → Nat
  | .badReq _ => 400
  | .notFound => 404
  | .dbFail _ => 500
  | .okTrue => 200
  | .okId _ => 200

/-- `isValidWeekday(n)`: an integer between 1 and 7. -/
def isValidWeekday (n : Int) : Bool := 1 ≤ n && n ≤ 7

/-- A row of the `GET /api/admin/business-hours` response
(`DATE_FORMAT(…, '%H:%i')` renders minute precision). -/
structure BizView where
  week_day : Nat
  start_time : Option String
  end_time : Option String
  is_open : Nat
deriving DecidableEq, Repr

/-- The handler body of `GET /api/admin/business-hours`. -/
def getBusinessHoursBody (db : Db) : List BizView :=
  (sortListBy (fun a b => a.week_day ≤ b.week_day) db.biz).map fun r =>
    ⟨r.week_day, r.start_time.map toHHMM, r.end_time.map toHHMM, r.is_open⟩

/-- `GET /api/admin/business-hours` with its admin guard. -/
def getBusinessHours (session : Option User) (db : Db) : AdminResp (List BizView) × Db :=
  requireAdmin session db fun db => (getBusinessHoursBody db, db)

/-- Request body of `PUT /api/admin/business-hours/:week_day` (`is_open`
already reduced from truthiness). -/
structure BizPutReq where
  is_open : Bool
  start_time : Option String
  end_time : Option String
deriving DecidableEq, Repr

/-- `INSERT … ON DUPLICATE KEY UPDATE` on `business_hours`, replacing
start/end/is_open of the weekday (week_day is the unique key). -/
def upsertBiz (rows : List BizRow) (day : Nat) (st en : Option String) (io : Nat) :
    List BizRow :=
  if rows.any (fun r => r.week_day == day) then
    rows.map fun r => if r.week_day == day then ⟨day, st, en, io⟩ else r
  else rows ++ [⟨day, st, en, io⟩]

/-- The handler body of `PUT /api/admin/business-hours/:week_day`. -/
def putBusinessHoursBody (db : Db) (day : Int) (req : BizPutReq) : WriteResp × Db :=
  if !isValidWeekday day then (.badReq "week_day must be 1..7", db)
  else
    let start := match req.start_time with
      | none => none
      | some s => normalizeTimeHHMMSS s
    let endv := match req.end_time with
      | none => none
      | some s => normalizeTimeHHMMSS s
    if req.is_open ∧ (start = none ∨ endv = none) then
      (.badReq "When is_open is true, start_time and end_time are required", db)
    else if req.is_open ∧ jsStrLe (endv.getD "") (start.getD "") then
      (.badReq "start_time must be before end_time", db)
    else
      (.okTrue,
       { db with biz := upsertBiz db.biz day.toNat start endv (if req.is_open then 1 else 0) })

/-- `PUT /api/admin/business-hours/:week_day` with its admin guard. -/
def putBusinessHours (session : Option User) (db : Db) (day : Int) (req : BizPutReq) :
    AdminResp WriteResp × Db :=
  requireAdmin session db fun db => putBusinessHoursBody db day req

/-- The upsert of the `DELETE` route:
`INSERT INTO business_hours (week_day, is_open) VALUES (?, 0) ON DUPLICATE KEY
UPDATE is_open = VALUES(is_open)` — an existing row keeps its times and only
`is_open` becomes 0; a missing row is inserted with `NULL` times. -/
def upsertBizClose (rows : List BizRow) (day : Nat) : List BizRow :=
  if rows.any (fun r => r.week_day == day) then
    rows.map fun r => if r.week_day == day then { r with is_open := 0 } else r
  else rows ++ [⟨day, none, none, 0⟩]

/-- The handler body of `DELETE /api/admin/business-hours/:week_day`, which
never deletes: it upserts `is_open = 0`. -/
def deleteBusinessHoursBody (db : Db) (day : Int) : WriteResp × Db :=
  if !isValidWeekday day then (.badReq "week_day must be 1..7", db)
  else (.okTrue, { db with biz := upsertBizClose db.biz day.toNat })

/-- `DELETE /api/admin/business-hours/:week_day` with its admin guard. -/
def deleteBusinessHours (session : Option User) (db : Db) (day : Int) :
    AdminResp WriteResp × Db :=
  requireAdmin session db fun db => deleteBusinessHoursBody db day

/-! ## Holiday-hours administration -/

/-- `DATE_FORMAT(d, '%Y-%m-%d')`. -/
def fmtYMD (x : YMD) : String :=
  padZeros 4 (toString x.y) ++ "-" ++ fmt2 x.m ++ "-" ++ fmt2 x.d

/-- A row of the `GET /api/admin/holiday-hours` response. -/
structure HolidayView where
  id : Nat
  start_date : String
  end_date : Option String
  holiday : String
  comment : Option String
  is_open : Bool
  start_time : Option String
  end_time : Option String
deriving DecidableEq, Repr

/-- `a <= b` on the ranged-listing sort keys (start date, effective end
date, id). -/
def holidayListLeB (a b : HolidayRow) : Bool :=
  let al := (ymdToDays a.start_date, ymdToDays (hrEffEnd a), a.id)
  let bl := (ymdToDays b.start_date, ymdToDays (hrEffEnd b), b.id)
  al.1 < bl.1 || (al.1 == bl.1 && (al.2.1 < bl.2.1 ||
    (al.2.1 == bl.2.1 && al.2.2 ≤ bl.2.2)))

/-- The handler body of `GET /api/admin/holiday-hours?from=&to=`: overlap
with `[from, to]` (`WHERE NOT (COALESCE(end_date, start_date) < ? OR
start_date > ?)`), ordered, with `is_open` normalized to a boolean. -/
def getHolidayHoursBody (db : Db) (fromS toS : String) : WriteResp ⊕ List HolidayView :=
  if !(isISODate fromS && isISODate toS) then
    .inl (.badReq "from and to (YYYY-MM-DD) are required")
  else
    match jsParseDate fromS, jsParseDate toS with
    | some f, some t =>
      let rows := db.holidays.filter fun r =>
        !(ymdLeB (hrEffEnd r) f && !(hrEffEnd r == f) || ymdLeB t r.start_date && !(r.start_date == t))
      .inr ((sortListBy holidayListLeB rows).map fun r =>
        ⟨r.id, fmtYMD r.start_date, r.end_date.map fmtYMD, r.holiday, r.comment,
         r.is_open == 1, r.start_time.map toHHMM, r.end_time.map toHHMM⟩)
    | _, _ => .inr []

/-- `GET /api/admin/holiday-hours` with its admin guard. -/
def getHolidayHours (session : Option User) (db : Db) (fromS toS : String) :
    AdminResp (WriteResp ⊕ List HolidayView) × Db :=
  requireAdmin session db fun db => (getHolidayHoursBody db fromS toS, db)

/-- Request body of the holiday-hours create/update endpoints. -/
structure HolidayReq where
  start_date : String
  end_date : Option String
  holiday : String
  comment : Option String
  is_open : Bool
  start_time : Option String
  end_time : Option String
deriving DecidableEq, Repr

/-- The shared validation of `POST`/`PUT /api/admin/holiday-hours`: ISO
dates, non-blank label, ordered times when open, `end_date` not before
`start_date` (JavaScript string comparison of the ISO strings). -/
def holidayReqCheck (req : HolidayReq) : Option WriteResp :=
  if !isISODate req.start_date then some (.badReq "start_date must be YYYY-MM-DD")
  else if (match req.end_date with
           | some e => !(e == "") && !isISODate e
           | none => false) then
    some (.badReq "end_date must be YYYY-MM-DD")
  else if req.holiday == "" || req.holiday.trim == "" then
    some (.badReq "holiday is required")
  else
    let st := if req.is_open then (req.start_time.bind normalizeTimeHHMMSS) else none
    let et := if req.is_open then (req.end_time.bind normalizeTimeHHMMSS) else none
    if req.is_open ∧ (st = none ∨ et = none) then
      some (.badReq "start_time and end_time required when is_open=true")
    else if req.is_open ∧ jsStrLe (et.getD "") (st.getD "") then
      some (.badReq "start_time must be before end_time")
    else if (match req.end_date with
             | some e => !(e == "") && jsStrLt e req.start_date
             | none => false) then
      some (.badReq "end_date must be on/after start_date")
    else none

/-- The stored times of a holiday write (`null` unless open). -/
def holidayReqTimes (req : HolidayReq) : Option String × Option String :=
  (if req.is_open then req.start_time.bind normalizeTimeHHMMSS else none,
   if req.is_open then req.end_time.bind normalizeTimeHHMMSS else none)

/-- The handler body of `POST /api/admin/holiday-hours`: validate, insert
with the next id, answer `{ok:true, id}`.  A date string that passes the
regex but denotes no real date is rejected by MySQL's `DATE` column, which
the handler reports as a 500. -/
def postHolidayHoursBody (db : Db) (req : HolidayReq) : WriteResp × Db :=
  match holidayReqCheck req with
  | some e => (e, db)
  | none =>
    match jsParseDate req.start_date,
          (match req.end_date with
           | none => some none
           | some e => if e == "" then some none else (jsParseDate e).map some) with
    | some sd, some ed =>
      let (st, et) := holidayReqTimes req
      (.okId db.nextHolidayId,
       { db with
         holidays := db.holidays ++
           [⟨db.nextHolidayId, sd, ed, req.holiday.trim,
             (jsOrNullOpt req.comment).map String.trim,
             (if req.is_open then 1 else 0), st, et⟩],
         nextHolidayId := db.nextHolidayId + 1 })
    | _, _ => (.dbFail "Failed to save holiday", db)

/-- `POST /api/admin/holiday-hours` with its admin guard. -/
def postHolidayHours (session : Option User) (db : Db) (req : HolidayReq) :
    AdminResp WriteResp × Db :=
  requireAdmin session db fun db => postHolidayHoursBody db req

/-- The handler body of `PUT /api/admin/holiday-hours/:id`: identical
validation, full-row replacement, 404 when no row has the id
(`affectedRows === 0`). -/
def putHolidayHoursBody (db : Db) (idP : Int) (req : HolidayReq) : WriteResp × Db :=
  if !(0 < idP) then (.badReq "Invalid id", db)
  else
    match holidayReqCheck req with
    | some e => (e, db)
    | none =>
      match jsParseDate req.start_date,
            (match req.end_date with
             | none => some none
             | some e => if e == "" then some none else (jsParseDate e).map some) with
      | some sd, some ed =>
        if db.holidays.any (fun r => (r.id : Int) == idP) then
          let (st, et) := holidayReqTimes req
          (.okTrue,
           { db with holidays := db.holidays.map fun r =>
              if (r.id : Int) == idP then
                ⟨r.id, sd, ed, req.holiday.trim, (jsOrNullOpt req.comment).map String.trim,
                 (if req.is_open then 1 else 0), st, et⟩
              else r })
        else (.notFound, db)
      | _, _ => (.dbFail "Failed to update holiday", db)

/-- `PUT /api/admin/holiday-hours/:id` with its admin guard. -/
def putHolidayHours (session : Option User) (db : Db) (idP : Int) (req : HolidayReq) :
    AdminResp WriteResp × Db :=
  requireAdmin session db fun db => putHolidayHoursBody db idP req

/-- The handler body of `DELETE /api/admin/holiday-hours/:id`: remove the
row, 404 when absent. -/
def deleteHolidayHoursBody (db : Db) (idP : Int) : WriteResp × Db :=
  if !(0 < idP) then (.badReq "Invalid id", db)
  else if db.holidays.any (fun r => (r.id : Int) == idP) then
    (.okTrue, { db with holidays := db.holidays.filter fun r => !((r.id : Int) == idP) })
  else (.notFound, db)

/-- `DELETE /api/admin/holiday-hours/:id` with its admin guard. -/
def deleteHolidayHours (session : Option User) (db : Db) (idP : Int) :
    AdminResp WriteResp × Db :=
  requireAdmin session db fun db => deleteHolidayHoursBody db idP

/-! ## Specification-side definitions

These state the claims' arithmetic characterizations independently of the
string-level code path; the theorems below relate the embedded handlers to
them. -/

/-- The claim's candidate start times for a working window `[startM, endM]`
(minutes of day) and a slot length: `startM, startM + slot, …`, stopping once
a candidate's end would exceed `endM`. -/
def specCandidates (startM endM slot : Nat) : List Nat :=
  (List.range ((endM - startM) / slot)).map fun k => startM + k * slot

/-- The half-open overlap test of the glossary: `[s1, e1)` and `[s2, e2)`
overlap iff `s1 < e2 AND e1 > s2`. -/
def overlapsHalfOpen (s1 e1 s2 e2 : Nat) : Prop := s1 < e2 ∧ e1 > s2

instance (s1 e1 s2 e2 : Nat) : Decidable (overlapsHalfOpen s1 e1 s2 e2) :=
  inferInstanceAs (Decidable (s1 < e2 ∧ e1 > s2))

/-- The claim's availability result: candidates whose slot interval overlaps
no existing appointment's `[time, time+duration)` (appointments given as
`(startMinute, durationMinutes)` pairs). -/
def specFreeSlots (startM endM slot : Nat) (appts : List (Nat × Nat)) : List Nat :=
  (specCandidates startM endM slot).filter fun c =>
    appts.all fun a => !(decide (c < a.1 + a.2) && decide (c + slot > a.1))

/-- The claim's booking-conflict condition: some stored row on the request's
date whose half-open interval (in seconds of day, as the SQL computes it)
overlaps the requested one. -/
def bookSpecConflict (db : Db) (req : BookReq) : Prop :=
  ∃ r ∈ db.appts, r.date = req.date ∧
    overlapsHalfOpen (sqlTimeSec r.time) (sqlTimeSec r.time + r.duration * 60)
      (sqlTimeSec (toHHMM req.time)) (sqlTimeSec (toHHMM req.time) + req.duration * 60)

instance (db : Db) (req : BookReq) : Decidable (bookSpecConflict db req) :=
  inferInstanceAs (Decidable (∃ r ∈ db.appts, r.date = req.date ∧
    overlapsHalfOpen (sqlTimeSec r.time) (sqlTimeSec r.time + r.duration * 60)
      (sqlTimeSec (toHHMM req.time)) (sqlTimeSec (toHHMM req.time) + req.duration * 60)))

/-- A `holiday_hours` row on which the two deployment variants of
`GET /api/holiday-info` visibly disagree: it covers 2025-12-25, so the
serverless variant reports it, while the listener variant's query fails. -/
def listenerDivergenceRow : HolidayRow :=
  ⟨1, ⟨2025, 12, 24⟩, some ⟨2025, 12, 26⟩, "Christmas", none, 0, none, none⟩

/-! ## Bridging lemmas: `"HH:MM"` strings versus minute arithmetic

Every time string the availability path manipulates is `fmtHHMM` of a minute
value below 6000 (two-digit hour field), and on that domain JavaScript's
lexicographic string comparison agrees with the numeric order. -/

theorem str_data_append (a b : String) : (a ++ b).data = a.data ++ b.data := by
  cases a; cases b; rfl

theorem digitCh_toNat : ∀ n < 10, (digitCh n).toNat = 48 + n := by decide

theorem digitCh_ne_colon : ∀ n < 10, digitCh n ≠ ':' := by decide

theorem isDigitCh_digitCh : ∀ n < 10, isDigitCh (digitCh n) = true := by decide

theorem digitsVal_pair : ∀ a < 10, ∀ b < 10, digitsVal [digitCh a, digitCh b] = 10 * a + b := by
  decide

theorem fmt2_eq : ∀ n < 100, fmt2 n = String.mk [digitCh (n / 10), digitCh (n % 10)] := by
  decide

theorem fmtHHMM_data (t : Nat) (h : t < 6000) :
    (fmtHHMM t).data =
      [digitCh (t / 60 / 10), digitCh (t / 60 % 10), ':',
       digitCh (t % 60 / 10), digitCh (t % 60 % 10)] := by
  rw [fmtHHMM, fmt2_eq (t / 60) (by omega), fmt2_eq (t % 60) (by omega),
    str_data_append, str_data_append]
  rfl

theorem fmtHHMM_ne_empty (t : Nat) (h : t < 6000) : fmtHHMM t ≠ "" := by
  intro he
  have := fmtHHMM_data t h
  rw [he] at this
  exact absurd this (by simp [String.data])

theorem splitCh_fmtHHMM (t : Nat) (h : t < 6000) :
    splitCh ':' (fmtHHMM t) =
      [[digitCh (t / 60 / 10), digitCh (t / 60 % 10)],
       [digitCh (t % 60 / 10), digitCh (t % 60 % 10)]] := by
  have e1 := digitCh_ne_colon (t / 60 / 10) (by omega)
  have e2 := digitCh_ne_colon (t / 60 % 10) (by omega)
  have e3 := digitCh_ne_colon (t % 60 / 10) (by omega)
  have e4 := digitCh_ne_colon (t % 60 % 10) (by omega)
  rw [splitCh, fmtHHMM_data t h]
  simp [splitChAux, e1, e2, e3, e4]

theorem hhmmVal_fmtHHMM (t : Nat) (h : t < 6000) : hhmmVal (fmtHHMM t) = t := by
  rw [hhmmVal, splitCh_fmtHHMM t h]
  show 60 * digitsVal [digitCh (t / 60 / 10), digitCh (t / 60 % 10)] +
      digitsVal [digitCh (t % 60 / 10), digitCh (t % 60 % 10)] = t
  rw [digitsVal_pair (t / 60 / 10) (by omega) (t / 60 % 10) (by omega),
    digitsVal_pair (t % 60 / 10) (by omega) (t % 60 % 10) (by omega)]
  omega

theorem addMinutesHHMM_fmt (t k : Nat) (h : t < 6000) :
    addMinutesHHMM (fmtHHMM t) k = fmtHHMM (t + k) := by
  rw [addMinutesHHMM, hhmmVal_fmtHHMM t h]

theorem charsLt_digitPairs (a1 a2 a3 a4 b1 b2 b3 b4 : Nat)
    (ha1 : a1 < 10) (ha2 : a2 < 10) (ha3 : a3 < 10) (ha4 : a4 < 10)
    (hb1 : b1 < 10) (hb2 : b2 < 10) (hb3 : b3 < 10) (hb4 : b4 < 10) :
    charsLt [digitCh a1, digitCh a2, ':', digitCh a3, digitCh a4]
      [digitCh b1, digitCh b2, ':', digitCh b3, digitCh b4] =
    decide (1000 * a1 + 100 * a2 + 10 * a3 + a4 < 1000 * b1 + 100 * b2 + 10 * b3 + b4) := by
  simp only [charsLt, digitCh_toNat a1 ha1, digitCh_toNat a2 ha2, digitCh_toNat a3 ha3,
    digitCh_toNat a4 ha4, digitCh_toNat b1 hb1, digitCh_toNat b2 hb2, digitCh_toNat b3 hb3,
    digitCh_toNat b4 hb4]
  norm_num
  rw [Bool.eq_iff_iff]
  simp only [Bool.or_eq_true, Bool.and_eq_true, Bool.not_eq_true', decide_eq_true_iff,
    decide_eq_false_iff_not]
  omega

theorem jsStrLt_fmt (t u : Nat) (ht : t < 6000) (hu : u < 6000) :
    jsStrLt (fmtHHMM t) (fmtHHMM u) = decide (t < u) := by
  rw [jsStrLt, fmtHHMM_data t ht, fmtHHMM_data u hu,
    charsLt_digitPairs _ _ _ _ _ _ _ _ (by omega) (by omega) (by omega) (by omega)
      (by omega) (by omega) (by omega) (by omega)]
  rw [decide_eq_decide]
  omega

theorem jsStrLe_fmt (t u : Nat) (ht : t < 6000) (hu : u < 6000) :
    jsStrLe (fmtHHMM t) (fmtHHMM u) = decide (t ≤ u) := by
  rw [jsStrLe, jsStrLt_fmt u t hu ht, ← decide_not, decide_eq_decide]
  omega

theorem list_all_map {α β : Type} (f : α → β) (l : List α) (p : β → Bool) :
    (l.map f).all p = l.all (fun a => p (f a)) := by
  induction l with
  | nil => rfl
  | cons x xs ih => simp [ih]

theorem list_all_congr {α : Type} {l : List α} {p q : α → Bool}
    (h : ∀ x ∈ l, p x = q x) : l.all p = l.all q := by
  induction l with
  | nil => rfl
  | cons x xs ih =>
    simp only [List.all_cons]
    rw [h x (by simp), ih fun y hy => h y (by simp [hy])]

/-- The candidate loop, on the in-domain window shapes: starting from minute
`m` of a real clock time, with the slot between 5 and 4560 minutes, it
produces exactly the arithmetic candidate sequence of the specification. -/
theorem slotLoop_spec (endM slot : Nat) (h5 : 5 ≤ slot) (hs : slot ≤ 4560) :
    ∀ fuel m, m ≤ 1439 → endM ≤ 1439 → (endM - m) / slot < fuel →
    slotLoop (fmtHHMM endM) slot fuel (fmtHHMM m) =
      (List.range ((endM - m) / slot)).map (fun k => fmtHHMM (m + k * slot)) := by
  intro fuel
  induction fuel with
  | zero => intro m _ _ hf; exact absurd hf (Nat.not_lt_zero _)
  | succ n ih =>
    intro m hm he hf
    rw [slotLoop, addMinutesHHMM_fmt m slot (by omega),
      jsStrLe_fmt (m + slot) endM (by omega) (by omega)]
    by_cases hle : m + slot ≤ endM
    · have hn : (endM - m) / slot = (endM - (m + slot)) / slot + 1 := by
        have hsplit : endM - m = (endM - (m + slot)) + slot := by omega
        rw [hsplit, Nat.add_div_right _ (by omega)]
      rw [decide_eq_true hle, if_pos rfl,
        ih (m + slot) (by omega) he (by omega), hn, List.range_succ_eq_map]
      simp only [List.map_cons, List.map_map, Nat.zero_mul, Nat.add_zero, List.cons.injEq,
        true_and]
      apply List.map_congr_left
      intro k _
      simp only [Function.comp_apply, Nat.succ_eq_add_one]
      congr 1
      ring
    · have hz : (endM - m) / slot = 0 := Nat.div_eq_of_lt (by omega)
      rw [hz]
      have : decide (m + slot ≤ endM) = false := decide_eq_false hle
      rw [this]
      simp

theorem slotMinutesNat_ge5 (q : Option Int) : 5 ≤ slotMinutesNat q := le_max_left _ _

/-- `handleWithWindow` on a real working window of a non-today date: its
response lists exactly the specification's free slots, rendered back to
`"HH:MM"`. -/
theorem handleWithWindow_spec (db : Db) (now : LocalDT) (dateS : String) (slot : Nat)
    (stS enS : String) (startM endM : Nat) (meta : Option AvailMeta) (L : List (Nat × Nat))
    (hstV : toHHMM stS = fmtHHMM startM) (henV : toHHMM enS = fmtHHMM endM)
    (hsM : startM ≤ 1439) (heM : endM ≤ 1439) (h5 : 5 ≤ slot) (hslot : slot ≤ 4560)
    (hnottoday : availIsToday now dateS = false)
    (hap : (db.appts.filter (fun r => r.date == dateS)).map
        (fun r => (toHHMM r.time, r.duration)) = L.map (fun p => (fmtHHMM p.1, p.2)))
    (hLb : ∀ p ∈ L, p.1 < 6000 ∧ p.1 + p.2 < 6000) :
    handleWithWindow db now dateS slot (some stS) (some enS) meta =
      availOk dateS slot ((specFreeSlots startM endM slot L).map fmtHHMM) meta := by
  have hstne : stS ≠ "" := by
    intro he
    rw [he] at hstV
    exact fmtHHMM_ne_empty startM (by omega) hstV.symm
  have henne : enS ≠ "" := by
    intro he
    rw [he] at henV
    exact fmtHHMM_ne_empty endM (by omega) henV.symm
  have hN : (endM - startM) / slot < slotLoopFuel := by
    calc (endM - startM) / slot ≤ (endM - startM) / 5 := Nat.div_le_div_left h5 (by omega)
    _ ≤ 1439 / 5 := Nat.div_le_div_right (by omega)
    _ < slotLoopFuel := by norm_num [slotLoopFuel]
  have hcand : slotLoop (toHHMM enS) slot slotLoopFuel (toHHMM stS) =
      (specCandidates startM endM slot).map fmtHHMM := by
    rw [hstV, henV, slotLoop_spec endM slot h5 hslot slotLoopFuel startM hsM heM hN,
      specCandidates, List.map_map]
    rfl
  have hexist : (db.appts.filter (fun r => r.date == dateS)).map
      (fun r => (toHHMM r.time, addMinutesHHMM (toHHMM r.time) r.duration)) =
      L.map (fun p => (fmtHHMM p.1, fmtHHMM (p.1 + p.2))) := by
    have e1 : (db.appts.filter (fun r => r.date == dateS)).map
        (fun r => (toHHMM r.time, addMinutesHHMM (toHHMM r.time) r.duration)) =
        ((db.appts.filter (fun r => r.date == dateS)).map
          (fun r => (toHHMM r.time, r.duration))).map
            (fun p => (p.1, addMinutesHHMM p.1 p.2)) := by
      rw [List.map_map]
      rfl
    rw [e1, hap, List.map_map]
    apply List.map_congr_left
    intro p hp
    simp only [Function.comp_apply]
    rw [addMinutesHHMM_fmt p.1 p.2 (hLb p hp).1]
  have hfree : ∀ c ∈ specCandidates startM endM slot,
      (L.map (fun p => (fmtHHMM p.1, fmtHHMM (p.1 + p.2)))).all
        (fun ex => !(jsStrLt (fmtHHMM c) ex.2 && jsStrLt ex.1 (addMinutesHHMM (fmtHHMM c) slot))) =
      L.all (fun a => !(decide (c < a.1 + a.2) && decide (c + slot > a.1))) := by
    intro c hc
    obtain ⟨k, hk, hck⟩ := List.mem_map.mp hc
    have hkN : k < (endM - startM) / slot := List.mem_range.mp hk
    have hc1 : c + slot ≤ endM := by
      have h1 : (k + 1) * slot ≤ ((endM - startM) / slot) * slot :=
        Nat.mul_le_mul_right _ hkN
      have h2 : ((endM - startM) / slot) * slot ≤ endM - startM := Nat.div_mul_le_self _ _
      have h3 : (k + 1) * slot = k * slot + slot := by ring
      omega
    have hc6 : c < 6000 := by omega
    rw [addMinutesHHMM_fmt c slot hc6, list_all_map]
    apply list_all_congr
    intro p hp
    rw [jsStrLt_fmt c (p.1 + p.2) hc6 (hLb p hp).2,
      jsStrLt_fmt p.1 (c + slot) (hLb p hp).1 (by omega)]
  simp only [handleWithWindow, strFalsy, beq_eq_false_iff_ne.mpr hstne,
    beq_eq_false_iff_ne.mpr henne, Bool.or_self, Bool.false_eq_true, if_false,
    Option.getD_some, hnottoday, if_neg, hcand]
  rw [hexist]
  by_cases hNz : specCandidates startM endM slot = []
  · rw [hNz]
    simp [specFreeSlots, hNz]
  · have hne : ((specCandidates startM endM slot).map fmtHHMM).isEmpty = false := by
      rw [List.isEmpty_eq_false_iff_exists_mem]
      obtain ⟨c, hcm⟩ := List.exists_mem_of_ne_nil _ hNz
      exact ⟨fmtHHMM c, List.mem_map_of_mem _ hcm⟩
    rw [hne]
    simp only [Bool.false_eq_true, if_false, specFreeSlots]
    congr 1
    rw [List.filter_map]
    congr 1
    apply List.filter_congr
    intro c hcm
    simp only [Function.comp_apply]
    exact hfree c hcm


/-- `GET /api/availability` through the weekly-hours branch, on a non-today
date whose weekday row holds a real working window: the response is exactly
the specification's free-slot list. -/
theorem availability_biz_spec (db : Db) (now : LocalDT) (dateS : String)
    (slotQ exQ : Option Int) (D : YMD) (w : Nat) (row : BizRow) (stS enS : String)
    (startM endM : Nat) (L : List (Nat × Nat))
    (hdate : isISODate dateS = true)
    (hparse : jsParseDate dateS = some D)
    (hnottoday : D ≠ now.date)
    (hhol : db.holidays.filter (hrQualifiesB D) = [])
    (hw : jsWeekdayMonday1to7 dateS = some w)
    (hfind : db.biz.find? (fun r => r.week_day == w) = some row)
    (hst : row.start_time = some stS) (hen : row.end_time = some enS)
    (hstV : toHHMM stS = fmtHHMM startM) (henV : toHHMM enS = fmtHHMM endM)
    (hsM : startM ≤ 1439) (heM : endM ≤ 1439)
    (hslot : slotMinutesNat slotQ ≤ 4560)
    (hap : (db.appts.filter (fun r => r.date == dateS)).map
        (fun r => (toHHMM r.time, r.duration)) = L.map (fun p => (fmtHHMM p.1, p.2)))
    (hLb : ∀ p ∈ L, p.1 < 6000 ∧ p.1 + p.2 < 6000) :
    availability db now dateS slotQ exQ =
      AvailResp.ok dateS (slotMinutesNat slotQ)
        ((specFreeSlots startM endM (slotMinutesNat slotQ) L).map fmtHHMM) none none none := by
  have hiT : availIsToday now dateS = false := by
    rw [availIsToday, hparse]
    exact beq_eq_false_iff_ne.mpr hnottoday
  have hlook : holidayLookup db.holidays dateS = none := by
    rw [holidayLookup, hparse]
    show pickMinBy (db.holidays.filter (hrQualifiesB D)) = none
    rw [hhol]
    rfl
  simp only [availability, hdate, Bool.not_true, Bool.false_eq_true, if_false, hlook]
  simp only [availBizBranch, hw, hfind]
  rw [hst, hen, handleWithWindow_spec db now dateS (slotMinutesNat slotQ) stS enS startM endM
    none L hstV henV hsM heM (slotMinutesNat_ge5 _) hslot hiT hap hLb]
  rfl

/-- `GET /api/availability` through an open holiday override with a real
working window: the response is the specification's free-slot list annotated
with the override. -/
theorem availability_holiday_open_spec (db : Db) (now : LocalDT) (dateS : String)
    (slotQ exQ : Option Int) (r : HolidayRow) (stS enS : String)
    (startM endM : Nat) (L : List (Nat × Nat))
    (hdate : isISODate dateS = true)
    (hnottoday : availIsToday now dateS = false)
    (hpick : holidayLookup db.holidays dateS = some r)
    (hopen : r.is_open = 1)
    (hst : r.start_time = some stS) (hen : r.end_time = some enS)
    (hstV : toHHMM stS = fmtHHMM startM) (henV : toHHMM enS = fmtHHMM endM)
    (hsM : startM ≤ 1439) (heM : endM ≤ 1439)
    (hslot : slotMinutesNat slotQ ≤ 4560)
    (hap : (db.appts.filter (fun r => r.date == dateS)).map
        (fun r => (toHHMM r.time, r.duration)) = L.map (fun p => (fmtHHMM p.1, p.2)))
    (hLb : ∀ p ∈ L, p.1 < 6000 ∧ p.1 + p.2 < 6000) :
    availability db now dateS slotQ exQ =
      availOk dateS (slotMinutesNat slotQ)
        ((specFreeSlots startM endM (slotMinutesNat slotQ) L).map fmtHHMM)
        (some ⟨jsOrNullStr r.holiday, jsOrNullOpt r.comment, true⟩) := by
  simp only [availability, hdate, Bool.not_true, Bool.false_eq_true, if_false, hpick]
  rw [if_neg (by omega), if_pos hopen, hst, hen,
    handleWithWindow_spec db now dateS (slotMinutesNat slotQ) stS enS startM endM
      (some ⟨jsOrNullStr r.holiday, jsOrNullOpt r.comment, true⟩) L hstV henV hsM heM
      (slotMinutesNat_ge5 _) hslot hnottoday hap hLb]

/-- The weekly-hours branch never reads `business_hours.is_open`: arbitrarily
rewriting that column of every row leaves the branch's response unchanged. -/
theorem availBizBranch_is_open_blind (db : Db) (now : LocalDT) (dateS : String)
    (slot : Nat) (g : BizRow → Nat) :
    availBizBranch { db with biz := db.biz.map (fun r => { r with is_open := g r }) }
      now dateS slot = availBizBranch db now dateS slot := by
  simp only [availBizBranch]
  cases hw : jsWeekdayMonday1to7 dateS with
  | none => rfl
  | some w =>
    have hfind : (db.biz.map (fun r => ({ r with is_open := g r } : BizRow))).find?
        (fun r => r.week_day == w) =
        (db.biz.find? (fun r => r.week_day == w)).map (fun r => { r with is_open := g r }) := by
      rw [List.find?_map]
      rfl
    simp only [hfind]
    cases hr : db.biz.find? (fun r => r.week_day == w) with
    | none => rfl
    | some r => rfl

/-- `GET /api/availability` never reads `business_hours.is_open`. -/
theorem availability_is_open_blind (db : Db) (now : LocalDT) (dateS : String)
    (slotQ exQ : Option Int) (g : BizRow → Nat) :
    availability { db with biz := db.biz.map (fun r => { r with is_open := g r }) }
      now dateS slotQ exQ = availability db now dateS slotQ exQ := by
  simp only [availability]
  cases hlook : holidayLookup db.holidays dateS with
  | none => simp only [hlook, availBizBranch_is_open_blind]
  | some r =>
    simp only [hlook]
    by_cases h0 : r.is_open = 0
    · simp [h0]
    · by_cases h1 : r.is_open = 1
      · simp only [if_neg h0, h1, if_pos]
        rfl
      · simp only [if_neg h0, if_neg h1]
        rw [availBizBranch_is_open_blind db now dateS (slotMinutesNat slotQ) g]


/-! ## Booking lemmas -/

theorem isDigitCh_ne_colon {c : Char} (h : isDigitCh c = true) : c ≠ ':' := by
  intro he
  subst he
  exact absurd h (by decide)

theorem isHHMMstr_elim {s : String} (h : isHHMMstr s = true) :
    ∃ a b c d, s.data = [a, b, ':', c, d] ∧ isDigitCh a = true ∧ isDigitCh b = true ∧
      isDigitCh c = true ∧ isDigitCh d = true := by
  unfold isHHMMstr at h
  split at h
  next a b c d e heq =>
    simp only [Bool.and_eq_true, beq_iff_eq] at h
    obtain ⟨⟨⟨⟨h1, h2⟩, h3⟩, h4⟩, h5⟩ := h
    subst h3
    exact ⟨a, b, d, e, heq, h1, h2, h4, h5⟩
  next => cases h

theorem sqlTimeSec_append00 {s : String} (h : isHHMMstr s = true) :
    sqlTimeSec (s ++ ":00") = sqlTimeSec s := by
  obtain ⟨a, b, c, d, hdata, ha, hb, hc, hd⟩ := isHHMMstr_elim h
  have hsplit1 : splitCh ':' s = [[a, b], [c, d]] := by
    rw [splitCh, hdata]
    simp [splitChAux, isDigitCh_ne_colon ha, isDigitCh_ne_colon hb,
      isDigitCh_ne_colon hc, isDigitCh_ne_colon hd]
  have hsplit2 : splitCh ':' (s ++ ":00") = [[a, b], [c, d], ['0', '0']] := by
    rw [splitCh, str_data_append, hdata]
    show splitChAux ':' [a, b, ':', c, d, ':', '0', '0'] [] = _
    simp [splitChAux, isDigitCh_ne_colon ha, isDigitCh_ne_colon hb,
      isDigitCh_ne_colon hc, isDigitCh_ne_colon hd]
  rw [sqlTimeSec, sqlTimeSec, hsplit1, hsplit2]
  rfl

theorem isISODate_ne_empty {s : String} (h : isISODate s = true) : s ≠ "" := by
  intro he
  subst he
  exact absurd h (by decide)

theorem isHHMMstr_src_ne_empty {s : String} (h : isHHMMstr (toHHMM s) = true) : s ≠ "" := by
  intro he
  subst he
  exact absurd h (by decide)

/-- A booking request that passes all field validations reaches the conflict
check and insert unchanged. -/
theorem bookAppointment_valid (db : Db) (now : LocalDT) (req : BookReq)
    (hv : BookReqFieldsOk req) (hp : bookPastCheck now req = false) :
    bookAppointment db now req =
      bookAfterValidation db req (reqPhone10 req.phoneNumber) (toHHMM req.time) := by
  obtain ⟨hname, htyp, hdur, hdate, htime, hph⟩ := hv
  have hdempty : (req.date == "") = false := beq_eq_false_iff_ne.mpr (isISODate_ne_empty hdate)
  have htempty : (req.time == "") = false :=
    beq_eq_false_iff_ne.mpr (isHHMMstr_src_ne_empty htime)
  have hnempty : (req.name == "") = false := beq_eq_false_iff_ne.mpr hname
  have hyempty : (req.typ == "") = false := beq_eq_false_iff_ne.mpr htyp
  have hd0 : (req.duration == 0) = false := beq_eq_false_iff_ne.mpr (by omega)
  have hd36 : (req.duration == 30 || req.duration == 60) = true := by
    rcases hdur with h | h <;> simp [h]
  have hphone : (!strFalsy req.phoneNumber && (reqPhone10 req.phoneNumber == none)) = false := by
    rcases hph with h | h
    · simp [h]
    · obtain ⟨v, hv⟩ := Option.isSome_iff_exists.mp h
      rcases hfal : strFalsy req.phoneNumber with _ | _
      · simp [reqPhone10, hfal, hv]
      · simp [hfal]
  simp only [bookAppointment, hnempty, hdempty, htempty, hd0, hyempty, Bool.or_self,
    Bool.or_false, Bool.false_or, Bool.false_eq_true, if_false, hd36, Bool.not_true,
    hphone, htime, hdate, Bool.and_self, hp]

/-- The conflict boolean is exactly the claim's overlap condition. -/
theorem bookConflictB_iff (db : Db) (req : BookReq) :
    bookConflictB db.appts req.date (toHHMM req.time) req.duration = true ↔
      bookSpecConflict db req := by
  rw [bookConflictB, List.any_eq_true, bookSpecConflict]
  constructor
  · rintro ⟨r, hr, hcond⟩
    simp only [Bool.and_eq_true, beq_iff_eq, decide_eq_true_iff] at hcond
    exact ⟨r, hr, hcond.1.1, hcond.2, hcond.1.2⟩
  · rintro ⟨r, hr, hdate, hov1, hov2⟩
    refine ⟨r, hr, ?_⟩
    simp only [Bool.and_eq_true, beq_iff_eq, decide_eq_true_iff]
    exact ⟨⟨hdate, hov2⟩, hov1⟩


/-- Claim C1: a validated `POST /api/BookAppointment` responds 409 exactly
when some stored appointment on the same date overlaps the requested
half-open interval, leaving the stored appointments unchanged in that case;
otherwise it appends exactly one new row with `active = 1`, `paid = 0` and
responds 200 with a confirmation message.  Consequently, of two sequential
POSTs with identical date, start time and duration, the first (conflict-free)
one succeeds and the second is rejected with 409 without changing the
state. -/
theorem claim_C1 (db : Db) (now : LocalDT) (req : BookReq)
    (hv : BookReqFieldsOk req) (hp : bookPastCheck now req = false) :
    ((bookAppointment db now req).1.status = 409 ↔ bookSpecConflict db req) ∧
    (bookSpecConflict db req →
      (bookAppointment db now req).1 = ⟨409, "Time conflict with another appointment"⟩ ∧
      (bookAppointment db now req).2 = db) ∧
    (¬ bookSpecConflict db req →
      (bookAppointment db now req).1 = ⟨200, "Appointment saved successfully"⟩ ∧
      (bookAppointment db now req).2.appts =
        db.appts ++ [mkBookRow db req (reqPhone10 req.phoneNumber) (toHHMM req.time)] ∧
      (mkBookRow db req (reqPhone10 req.phoneNumber) (toHHMM req.time)).active = 1 ∧
      (mkBookRow db req (reqPhone10 req.phoneNumber) (toHHMM req.time)).paid = 0) ∧
    (∀ req2 : BookReq, BookReqFieldsOk req2 → bookPastCheck now req2 = false →
      req2.date = req.date → toHHMM req2.time = toHHMM req.time →
      req2.duration = req.duration → ¬ bookSpecConflict db req →
      (bookAppointment (bookAppointment db now req).2 now req2).1.status = 409 ∧
      (bookAppointment (bookAppointment db now req).2 now req2).2 =
        (bookAppointment db now req).2) := by
  have htime : isHHMMstr (toHHMM req.time) = true := hv.2.2.2.2.1
  have hdur : req.duration = 30 ∨ req.duration = 60 := hv.2.2.1
  rw [bookAppointment_valid db now req hv hp]
  have hiff := bookConflictB_iff db req
  by_cases hc : bookSpecConflict db req
  · have hcB : bookConflictB db.appts req.date (toHHMM req.time) req.duration = true :=
      hiff.mpr hc
    rw [bookAfterValidation, if_pos hcB]
    exact ⟨by simp [hc], fun _ => ⟨rfl, rfl⟩, fun hnc => absurd hc hnc,
      fun req2 _ _ _ _ _ hnc => absurd hc hnc⟩
  · have hcB : bookConflictB db.appts req.date (toHHMM req.time) req.duration = false := by
      rcases hb : bookConflictB db.appts req.date (toHHMM req.time) req.duration
      · rfl
      · exact absurd (hiff.mp hb) hc
    rw [bookAfterValidation, if_neg (by simp [hcB])]
    refine ⟨by simp [hc], fun hcc => absurd hcc hc, fun _ => ⟨rfl, rfl, rfl, rfl⟩, ?_⟩
    intro req2 hv2 hp2 hd2 ht2 hdur2 _
    rw [bookAppointment_valid _ now req2 hv2 hp2, bookAfterValidation]
    have hrow : bookConflictB
        (db.appts ++ [mkBookRow db req (reqPhone10 req.phoneNumber) (toHHMM req.time)])
        req2.date (toHHMM req2.time) req2.duration = true := by
      refine List.any_eq_true.mpr
        ⟨mkBookRow db req (reqPhone10 req.phoneNumber) (toHHMM req.time), by simp, ?_⟩
      simp only [mkBookRow, sqlTimeSec_append00 htime, hd2, ht2, hdur2]
      simp only [Bool.and_eq_true, beq_self_eq_true, true_and, decide_eq_true_iff]
      omega
    rw [if_pos hrow]
    exact ⟨rfl, rfl⟩

/-- Witness for claim C1 at a concrete request and empty store. -/
theorem claim_C1_witness :
    ((bookAppointment ⟨[], 1, [], [], 1⟩ ⟨⟨2025, 1, 1⟩, 0⟩
        ⟨"Bob", none, none, "2025-10-11", "10:00", 60, "consultation", none⟩).1.status = 409 ↔
      bookSpecConflict ⟨[], 1, [], [], 1⟩
        ⟨"Bob", none, none, "2025-10-11", "10:00", 60, "consultation", none⟩) ∧
    ((bookAppointment
        (bookAppointment ⟨[], 1, [], [], 1⟩ ⟨⟨2025, 1, 1⟩, 0⟩
          ⟨"Bob", none, none, "2025-10-11", "10:00", 60, "consultation", none⟩).2
        ⟨⟨2025, 1, 1⟩, 0⟩
        ⟨"Eve", none, none, "2025-10-11", "10:00", 60, "checkup", none⟩).1.status = 409) := by
  have h := claim_C1 ⟨[], 1, [], [], 1⟩ ⟨⟨2025, 1, 1⟩, 0⟩
    ⟨"Bob", none, none, "2025-10-11", "10:00", 60, "consultation", none⟩
    (by constructor
        · decide
        · constructor
          · decide
          · exact ⟨Or.inr rfl, by decide, by decide, Or.inl rfl⟩)
    (by decide)
  refine ⟨h.1, ?_⟩
  have h4 := h.2.2.2 ⟨"Eve", none, none, "2025-10-11", "10:00", 60, "checkup", none⟩
    (⟨by decide, by decide, Or.inr rfl, by decide, by decide, Or.inl rfl⟩)
    (by decide) rfl rfl rfl (by decide)
  exact h4.1


theorem reqPhone10_check_false {pn : Option String}
    (hph : strFalsy pn = true ∨ (normalizeNANPTo10 (pn.getD "")).isSome = true) :
    (!strFalsy pn && (reqPhone10 pn == none)) = false := by
  rcases hph with h | h
  · simp [h]
  · obtain ⟨v, hv⟩ := Option.isSome_iff_exists.mp h
    rcases hfal : strFalsy pn with _ | _
    · simp [reqPhone10, hfal, hv]
    · simp [hfal]

/-- Claim C10: a booking request whose date/time match the digit patterns but
denote no real calendar date-time passes the past check (an Invalid Date
comparison is false) and proceeds to the conflict check and insert, never
answering 400; the admin update endpoint instead rejects the same fields with
400 "Invalid date/time". -/
theorem claim_C10 (db : Db) (now : LocalDT) (req : BookReq)
    (hv : BookReqFieldsOk req)
    (hbad : jsParseDateTime req.date (toHHMM req.time) = none) :
    bookAppointment db now req =
      bookAfterValidation db req (reqPhone10 req.phoneNumber) (toHHMM req.time) ∧
    (bookAppointment db now req).1.status ≠ 400 ∧
    (∀ idP : Int, 0 < idP → ∀ a p : Option Bool,
      putAppointmentBody db now idP
        ⟨req.name, req.phoneNumber, req.email, req.date, req.time, req.duration,
         req.typ, req.comments, a, p⟩ = (.err 400 "Invalid date/time", db)) := by
  have hp : bookPastCheck now req = false := by rw [bookPastCheck, hbad]
  obtain ⟨hname, htyp, hdur, hdate, htime, hph⟩ := hv
  refine ⟨bookAppointment_valid db now req ⟨hname, htyp, hdur, hdate, htime, hph⟩ hp, ?_, ?_⟩
  · rw [bookAppointment_valid db now req ⟨hname, htyp, hdur, hdate, htime, hph⟩ hp,
      bookAfterValidation]
    by_cases hcB : bookConflictB db.appts req.date (toHHMM req.time) req.duration = true
    · rw [if_pos hcB]
      simp
    · rw [if_neg hcB]
      simp
  · intro idP hid a p
    have hidB : decide (0 < idP) = true := decide_eq_true hid
    have hdempty : (req.date == "") = false :=
      beq_eq_false_iff_ne.mpr (isISODate_ne_empty hdate)
    have htempty : (req.time == "") = false :=
      beq_eq_false_iff_ne.mpr (isHHMMstr_src_ne_empty htime)
    have hnempty : (req.name == "") = false := beq_eq_false_iff_ne.mpr hname
    have hyempty : (req.typ == "") = false := beq_eq_false_iff_ne.mpr htyp
    have hd0 : (req.duration == 0) = false := beq_eq_false_iff_ne.mpr (by omega)
    have hd36 : (req.duration == 30 || req.duration == 60) = true := by
      rcases hdur with h | h <;> simp [h]
    simp only [putAppointmentBody, hidB, Bool.not_true, Bool.false_eq_true, if_false,
      hnempty, hdempty, htempty, hd0, hyempty, Bool.or_self, Bool.or_false, Bool.false_or,
      hd36, reqPhone10_check_false hph, hbad]

/-- Witness for claim C10: month 13 is accepted by booking (proceeds to an
insert) and rejected by the update endpoint. -/
theorem claim_C10_witness :
    (bookAppointment ⟨[], 1, [], [], 1⟩ ⟨⟨2025, 1, 1⟩, 0⟩
      ⟨"Bob", none, none, "2025-13-05", "10:00", 60, "consultation", none⟩).1.status ≠ 400 ∧
    putAppointmentBody ⟨[], 1, [], [], 1⟩ ⟨⟨2025, 1, 1⟩, 0⟩ 1
      ⟨"Bob", none, none, "2025-13-05", "10:00", 60, "consultation", none, none, none⟩ =
      (.err 400 "Invalid date/time", ⟨[], 1, [], [], 1⟩) := by
  have h := claim_C10 ⟨[], 1, [], [], 1⟩ ⟨⟨2025, 1, 1⟩, 0⟩
    ⟨"Bob", none, none, "2025-13-05", "10:00", 60, "consultation", none⟩
    ⟨by decide, by decide, Or.inr rfl, by decide, by decide, Or.inl rfl⟩ (by decide)
  exact ⟨h.2.1, h.2.2 1 (by decide) none none⟩


/-- Claim C5: phone normalization strips every non-digit character and
accepts exactly a 10-digit result, or an 11-digit result whose leading `"1"`
is dropped; both the booking and the admin-update handler reject every other
supplied phone with 400 "Invalid phone number"; the accepted value is what
the insert stores.  The three quoted spellings normalize to `"5551234567"`
and `"555-12"` is rejected. -/
theorem claim_C5 :
    (normalizeNANPTo10 "(555) 123-4567" = some "5551234567" ∧
     normalizeNANPTo10 "5551234567" = some "5551234567" ∧
     normalizeNANPTo10 "15551234567" = some "5551234567" ∧
     normalizeNANPTo10 "555-12" = none) ∧
    (∀ raw out : String, normalizeNANPTo10 raw = some out ↔
      ((onlyDigits raw).length = 10 ∧ out = onlyDigits raw) ∨
      ((onlyDigits raw).length = 11 ∧ (onlyDigits raw).data.head? = some '1' ∧
        out = String.mk ((onlyDigits raw).data.drop 1))) ∧
    (∀ (db : Db) (now : LocalDT) (req : BookReq) (p : String),
      req.phoneNumber = some p → p ≠ "" → normalizeNANPTo10 p = none →
      req.name ≠ "" → req.date ≠ "" → req.time ≠ "" → req.typ ≠ "" →
      (req.duration = 30 ∨ req.duration = 60) →
      bookAppointment db now req = (⟨400, "Invalid phone number"⟩, db)) ∧
    (∀ (db : Db) (now : LocalDT) (idP : Int) (preq : PutReq) (p : String),
      0 < idP → preq.phoneNumber = some p → p ≠ "" → normalizeNANPTo10 p = none →
      preq.name ≠ "" → preq.date ≠ "" → preq.time ≠ "" → preq.typ ≠ "" →
      (preq.duration = 30 ∨ preq.duration = 60) →
      putAppointmentBody db now idP preq = (.err 400 "Invalid phone number", db)) ∧
    (∀ (db : Db) (req : BookReq) (ph : Option String) (s : String),
      (mkBookRow db req ph s).phoneNumber = ph) := by
  refine ⟨⟨by decide, by decide, by decide, by decide⟩, ?_, ?_, ?_, fun _ _ _ _ => rfl⟩
  · intro raw out
    constructor
    · intro h
      simp only [normalizeNANPTo10] at h
      split_ifs at h with h10 h11
      · exact Or.inl ⟨h10, (Option.some_inj.mp h).symm⟩
      · exact Or.inr ⟨h11.1, h11.2, (Option.some_inj.mp h).symm⟩
    · intro h
      simp only [normalizeNANPTo10]
      rcases h with ⟨hl, ho⟩ | ⟨hl, hh, ho⟩
      · rw [if_pos hl, ho]
      · rw [if_neg (by omega), if_pos ⟨hl, hh⟩, ho]
  · intro db now req p hpn hpne hnorm hname hdate htime htyp hdur
    have hnempty : (req.name == "") = false := beq_eq_false_iff_ne.mpr hname
    have hdempty : (req.date == "") = false := beq_eq_false_iff_ne.mpr hdate
    have htempty : (req.time == "") = false := beq_eq_false_iff_ne.mpr htime
    have hyempty : (req.typ == "") = false := beq_eq_false_iff_ne.mpr htyp
    have hd0 : (req.duration == 0) = false := beq_eq_false_iff_ne.mpr (by omega)
    have hd36 : (req.duration == 30 || req.duration == 60) = true := by
      rcases hdur with h | h <;> simp [h]
    have hfal : strFalsy req.phoneNumber = false := by
      rw [hpn]
      exact beq_eq_false_iff_ne.mpr hpne
    have hr10 : reqPhone10 req.phoneNumber = none := by
      rw [reqPhone10, if_neg (by simp [hfal]), hpn]
      exact hnorm
    simp only [bookAppointment, hnempty, hdempty, htempty, hd0, hyempty, Bool.or_self,
      Bool.or_false, Bool.false_or, Bool.false_eq_true, if_false, hd36, Bool.not_true,
      hfal, hr10, Bool.not_false, Bool.and_self, beq_self_eq_true, Bool.and_true, if_true]
  · intro db now idP preq p hid hpn hpne hnorm hname hdate htime htyp hdur
    have hidB : decide (0 < idP) = true := decide_eq_true hid
    have hnempty : (preq.name == "") = false := beq_eq_false_iff_ne.mpr hname
    have hdempty : (preq.date == "") = false := beq_eq_false_iff_ne.mpr hdate
    have htempty : (preq.time == "") = false := beq_eq_false_iff_ne.mpr htime
    have hyempty : (preq.typ == "") = false := beq_eq_false_iff_ne.mpr htyp
    have hd0 : (preq.duration == 0) = false := beq_eq_false_iff_ne.mpr (by omega)
    have hd36 : (preq.duration == 30 || preq.duration == 60) = true := by
      rcases hdur with h | h <;> simp [h]
    have hfal : strFalsy preq.phoneNumber = false := by
      rw [hpn]
      exact beq_eq_false_iff_ne.mpr hpne
    have hr10 : reqPhone10 preq.phoneNumber = none := by
      rw [reqPhone10, if_neg (by simp [hfal]), hpn]
      exact hnorm
    simp only [putAppointmentBody, hidB, Bool.not_true, Bool.false_eq_true, if_false,
      hnempty, hdempty, htempty, hd0, hyempty, Bool.or_self, Bool.or_false, Bool.false_or,
      hd36, hfal, hr10, Bool.not_false, Bool.and_self, beq_self_eq_true, Bool.and_true,
      if_true]

/-- Witness for claim C5: the booking and update endpoints reject
`"555-12"`. -/
theorem claim_C5_witness :
    bookAppointment ⟨[], 1, [], [], 1⟩ ⟨⟨2025, 1, 1⟩, 0⟩
      ⟨"Bob", some "555-12", none, "2025-10-11", "10:00", 60, "consultation", none⟩ =
      (⟨400, "Invalid phone number"⟩, ⟨[], 1, [], [], 1⟩) ∧
    putAppointmentBody ⟨[], 1, [], [], 1⟩ ⟨⟨2025, 1, 1⟩, 0⟩ 7
      ⟨"Bob", some "555-12", none, "2025-10-11", "10:00", 60, "consultation", none,
        none, none⟩ =
      (.err 400 "Invalid phone number", ⟨[], 1, [], [], 1⟩) :=
  ⟨claim_C5.2.2.1 ⟨[], 1, [], [], 1⟩ ⟨⟨2025, 1, 1⟩, 0⟩
      ⟨"Bob", some "555-12", none, "2025-10-11", "10:00", 60, "consultation", none⟩
      "555-12" rfl (by decide) (by decide) (by decide) (by decide) (by decide) (by decide)
      (Or.inr rfl),
   claim_C5.2.2.2.1 ⟨[], 1, [], [], 1⟩ ⟨⟨2025, 1, 1⟩, 0⟩ 7
      ⟨"Bob", some "555-12", none, "2025-10-11", "10:00", 60, "consultation", none,
        none, none⟩
      "555-12" (by decide) rfl (by decide) (by decide) (by decide) (by decide) (by decide)
      (by decide) (Or.inr rfl)⟩


/-- Claim C6: every admin-only endpoint rejects a request with no session
user with 401 "Not authenticated" and a session user whose role is any
string other than "admin" with 403 "Forbidden"; in both cases the response
is a constant (the equations hold for every stored state `db`, so no stored
data is read) and the state is returned unchanged. -/
theorem claim_C6 (db : Db) (now : LocalDT) (q : List (String × String))
    (limit : Option Nat) (apptId : Int) (preq : PutReq) (day : Int) (breq : BizPutReq)
    (fromS toS : String) (hreq : HolidayReq) (hidP : Int) (u : User)
    (hu : u.role ≠ "admin") :
    (listAppointments none db q limit = (.fail 401 "Not authenticated", db) ∧
     putAppointment none db now apptId preq = (.fail 401 "Not authenticated", db) ∧
     getBusinessHours none db = (.fail 401 "Not authenticated", db) ∧
     putBusinessHours none db day breq = (.fail 401 "Not authenticated", db) ∧
     deleteBusinessHours none db day = (.fail 401 "Not authenticated", db) ∧
     getHolidayHours none db fromS toS = (.fail 401 "Not authenticated", db) ∧
     postHolidayHours none db hreq = (.fail 401 "Not authenticated", db) ∧
     putHolidayHours none db hidP hreq = (.fail 401 "Not authenticated", db) ∧
     deleteHolidayHours none db hidP = (.fail 401 "Not authenticated", db)) ∧
    (listAppointments (some u) db q limit = (.fail 403 "Forbidden", db) ∧
     putAppointment (some u) db now apptId preq = (.fail 403 "Forbidden", db) ∧
     getBusinessHours (some u) db = (.fail 403 "Forbidden", db) ∧
     putBusinessHours (some u) db day breq = (.fail 403 "Forbidden", db) ∧
     deleteBusinessHours (some u) db day = (.fail 403 "Forbidden", db) ∧
     getHolidayHours (some u) db fromS toS = (.fail 403 "Forbidden", db) ∧
     postHolidayHours (some u) db hreq = (.fail 403 "Forbidden", db) ∧
     putHolidayHours (some u) db hidP hreq = (.fail 403 "Forbidden", db) ∧
     deleteHolidayHours (some u) db hidP = (.fail 403 "Forbidden", db)) := by
  have hro : (u.role == "admin") = false := beq_eq_false_iff_ne.mpr hu
  refine ⟨⟨rfl, rfl, rfl, rfl, rfl, rfl, rfl, rfl, rfl⟩, ?_⟩
  refine ⟨?_, ?_, ?_, ?_, ?_, ?_, ?_, ?_, ?_⟩ <;>
    simp [listAppointments, putAppointment, getBusinessHours, putBusinessHours,
      deleteBusinessHours, getHolidayHours, postHolidayHours, putHolidayHours,
      deleteHolidayHours, requireAdmin, hro]

/-- Witness for claim C6: a "viewer" session receives 403 from the
appointment listing. -/
theorem claim_C6_witness :
    listAppointments (some ⟨1, "v@example.com", "viewer"⟩) ⟨[], 1, [], [], 1⟩ [] none =
      (.fail 403 "Forbidden", ⟨[], 1, [], [], 1⟩) :=
  (claim_C6 ⟨[], 1, [], [], 1⟩ ⟨⟨2025, 1, 1⟩, 0⟩ [] none 1
    ⟨"n", none, none, "d", "t", 30, "y", none, none, none⟩ 1 ⟨false, none, none⟩
    "2025-01-01" "2025-01-02" ⟨"2025-01-01", none, "h", none, false, none, none⟩ 1
    ⟨1, "v@example.com", "viewer"⟩ (by decide)).2.1


theorem filter_not_map_ite {α : Type} (p : α → Bool) (g : α → α)
    (hg : ∀ a, p (g a) = p a) (l : List α) :
    (l.map fun a => if p a then g a else a).filter (fun a => !p a) =
      l.filter (fun a => !p a) := by
  induction l with
  | nil => rfl
  | cons x xs ih =>
    cases hpx : p x with
    | true => simp [hpx, hg, ih]
    | false => simp [hpx, ih]

/-- Claim C7: `DELETE /api/admin/business-hours/:week_day` (admin, weekday
1–7) answers 200 `{ok:true}` and never removes the row: afterwards a row for
the weekday exists with `is_open = 0`, any pre-existing row for the weekday
survives with its `start_time`/`end_time` unchanged (only `is_open` set to
0), and the rows of every other weekday — and the other tables — are
untouched. -/
theorem claim_C7 (db : Db) (u : User) (day : Int)
    (hrole : u.role = "admin") (hday : 1 ≤ day ∧ day ≤ 7) :
    (deleteBusinessHours (some u) db day).1 = .ok .okTrue ∧
    (deleteBusinessHours (some u) db day).2.appts = db.appts ∧
    (deleteBusinessHours (some u) db day).2.holidays = db.holidays ∧
    (∃ r ∈ (deleteBusinessHours (some u) db day).2.biz,
      r.week_day = day.toNat ∧ r.is_open = 0) ∧
    (∀ r0 ∈ db.biz, r0.week_day = day.toNat →
      ({ r0 with is_open := 0 } : BizRow) ∈ (deleteBusinessHours (some u) db day).2.biz) ∧
    ((deleteBusinessHours (some u) db day).2.biz.filter
        (fun r => !(r.week_day == day.toNat)) =
      db.biz.filter (fun r => !(r.week_day == day.toNat))) := by
  have hvw : isValidWeekday day = true := by
    simp only [isValidWeekday, Bool.and_eq_true, decide_eq_true_iff]
    exact hday
  have hbody : deleteBusinessHours (some u) db day =
      (.ok .okTrue, { db with biz := upsertBizClose db.biz day.toNat }) := by
    simp [deleteBusinessHours, requireAdmin, hrole, deleteBusinessHoursBody, hvw]
  rw [hbody]
  refine ⟨rfl, rfl, rfl, ?_, ?_, ?_⟩
  · show ∃ r ∈ upsertBizClose db.biz day.toNat, r.week_day = day.toNat ∧ r.is_open = 0
    rw [upsertBizClose]
    by_cases hany : db.biz.any (fun r => r.week_day == day.toNat) = true
    · obtain ⟨r0, hr0, hr0d⟩ := List.any_eq_true.mp hany
      rw [if_pos hany]
      refine ⟨{ r0 with is_open := 0 }, ?_, by simpa using beq_iff_eq.mp hr0d, rfl⟩
      have : ({ r0 with is_open := 0 } : BizRow) =
          (fun r => if r.week_day == day.toNat then { r with is_open := 0 } else r) r0 := by
        simp [hr0d]
      rw [this]
      exact List.mem_map_of_mem _ hr0
    · rw [if_neg hany]
      exact ⟨⟨day.toNat, none, none, 0⟩, by simp, rfl, rfl⟩
  · intro r0 hr0 hr0d
    show _ ∈ upsertBizClose db.biz day.toNat
    rw [upsertBizClose]
    have hr0b : (r0.week_day == day.toNat) = true := beq_iff_eq.mpr hr0d
    have hany : db.biz.any (fun r => r.week_day == day.toNat) = true :=
      List.any_eq_true.mpr ⟨r0, hr0, hr0b⟩
    rw [if_pos hany]
    have : ({ r0 with is_open := 0 } : BizRow) =
        (fun r => if r.week_day == day.toNat then { r with is_open := 0 } else r) r0 := by
      simp [hr0b]
    rw [this]
    exact List.mem_map_of_mem _ hr0
  · show (upsertBizClose db.biz day.toNat).filter _ = _
    rw [upsertBizClose]
    by_cases hany : db.biz.any (fun r => r.week_day == day.toNat) = true
    · rw [if_pos hany]
      exact filter_not_map_ite (fun r => r.week_day == day.toNat)
        (fun r => { r with is_open := 0 }) (fun _ => rfl) db.biz
    · rw [if_neg hany]
      simp

/-- Witness for claim C7 at weekday 3 over a one-row table. -/
theorem claim_C7_witness :
    (deleteBusinessHours (some ⟨1, "a@example.com", "admin"⟩)
      ⟨[], 1, [⟨3, some "09:00:00", some "17:00:00", 1⟩], [], 1⟩ 3).1 = .ok .okTrue ∧
    (⟨3, some "09:00:00", some "17:00:00", 0⟩ : BizRow) ∈
      (deleteBusinessHours (some ⟨1, "a@example.com", "admin"⟩)
        ⟨[], 1, [⟨3, some "09:00:00", some "17:00:00", 1⟩], [], 1⟩ 3).2.biz := by
  have h := claim_C7 ⟨[], 1, [⟨3, some "09:00:00", some "17:00:00", 1⟩], [], 1⟩
    ⟨1, "a@example.com", "admin"⟩ 3 rfl (by decide)
  exact ⟨h.1, h.2.2.2.2.1 ⟨3, some "09:00:00", some "17:00:00", 1⟩ (by simp) rfl⟩


/-- Claim C8: the `excludeId` query parameter of `GET /api/availability` is
parsed but never applied: two requests identical except for it receive
identical responses on every stored state. -/
theorem claim_C8 (db : Db) (now : LocalDT) (dateS : String) (slotQ e1 e2 : Option Int) :
    availability db now dateS slotQ e1 = availability db now dateS slotQ e2 := rfl

/-! ## Holiday-priority lemmas -/

theorem keyLtB_irrefl (a : Nat × Int × Nat) : keyLtB a a = false := by
  obtain ⟨a1, a2, a3⟩ := a
  simp [keyLtB]

theorem keyLtB_trans {a b c : Nat × Int × Nat} (h1 : keyLtB a b = true)
    (h2 : keyLtB b c = true) : keyLtB a c = true := by
  obtain ⟨a1, a2, a3⟩ := a
  obtain ⟨b1, b2, b3⟩ := b
  obtain ⟨c1, c2, c3⟩ := c
  simp only [keyLtB, Bool.or_eq_true, Bool.and_eq_true, decide_eq_true_iff,
    beq_iff_eq] at h1 h2 ⊢
  omega

theorem keyLtB_le_of_not_lt {a b c : Nat × Int × Nat} (h1 : keyLtB a b = false)
    (h2 : keyLtB a c = true) : keyLtB b c = true := by
  obtain ⟨a1, a2, a3⟩ := a
  obtain ⟨b1, b2, b3⟩ := b
  obtain ⟨c1, c2, c3⟩ := c
  rw [Bool.eq_false_iff] at h1
  simp only [keyLtB, Bool.or_eq_true, Bool.and_eq_true, decide_eq_true_iff,
    beq_iff_eq, ne_eq] at h1 h2 ⊢
  omega

theorem keyLtB_antisymm {a b : Nat × Int × Nat} (h1 : keyLtB a b = false)
    (h2 : keyLtB b a = false) : a = b := by
  obtain ⟨a1, a2, a3⟩ := a
  obtain ⟨b1, b2, b3⟩ := b
  rw [Bool.eq_false_iff] at h1 h2
  simp only [keyLtB, Bool.or_eq_true, Bool.and_eq_true, decide_eq_true_iff,
    beq_iff_eq, ne_eq] at h1 h2
  simp only [Prod.mk.injEq]
  omega

/-- The key-minimum fold starting from an element: the result is the least
element (no input is strictly below it). -/
theorem pickFold_min : ∀ (rs : List HolidayRow) (a : HolidayRow),
    ∃ b, List.foldl pickStep (some a) rs = some b ∧ (b = a ∨ b ∈ rs) ∧
      keyLtB (hrKey a) (hrKey b) = false ∧
      ∀ x ∈ rs, keyLtB (hrKey x) (hrKey b) = false := by
  intro rs
  induction rs with
  | nil =>
    intro a
    exact ⟨a, rfl, Or.inl rfl, keyLtB_irrefl _, fun x hx => absurd hx (List.not_mem_nil x)⟩
  | cons x xs ih =>
    intro a
    by_cases hxa : keyLtB (hrKey x) (hrKey a) = true
    · obtain ⟨b, hfold, hmem, hub, hall⟩ := ih x
      refine ⟨b, ?_, ?_, ?_, ?_⟩
      · simpa [pickStep, hxa] using hfold
      · rcases hmem with h | h
        · exact Or.inr (h ▸ List.mem_cons_self x xs)
        · exact Or.inr (List.mem_cons_of_mem x h)
      · rcases hab : keyLtB (hrKey a) (hrKey b) with _ | _
        · rfl
        · exact absurd (keyLtB_trans hxa hab) (by simp [hub])
      · intro y hy
        rcases List.mem_cons.mp hy with h | h
        · exact h ▸ hub
        · exact hall y h
    · obtain ⟨b, hfold, hmem, hub, hall⟩ := ih a
      have hxa' : keyLtB (hrKey x) (hrKey a) = false := by
        rcases h : keyLtB (hrKey x) (hrKey a) with _ | _
        · rfl
        · exact absurd h hxa
      refine ⟨b, ?_, ?_, hub, ?_⟩
      · simpa [pickStep, hxa'] using hfold
      · rcases hmem with h | h
        · exact Or.inl h
        · exact Or.inr (List.mem_cons_of_mem x h)
      · intro y hy
        rcases List.mem_cons.mp hy with h | h
        · subst h
          rcases hyb : keyLtB (hrKey y) (hrKey b) with _ | _
          · rfl
          · exact absurd (keyLtB_le_of_not_lt hxa' hyb) (by simp [hub])
        · exact hall y h

/-- `pickMinBy` of a nonempty list: a member below which no member lies. -/
theorem pickMinBy_spec {rs : List HolidayRow} (h : rs ≠ []) :
    ∃ b, pickMinBy rs = some b ∧ b ∈ rs ∧
      ∀ x ∈ rs, keyLtB (hrKey x) (hrKey b) = false := by
  cases rs with
  | nil => exact absurd rfl h
  | cons r rest =>
    obtain ⟨b, hfold, hmem, hub, hall⟩ := pickFold_min rest r
    refine ⟨b, ?_, ?_, ?_⟩
    · simpa [pickMinBy, pickStep] using hfold
    · rcases hmem with hh | hh
      · exact hh ▸ List.mem_cons_self r rest
      · exact List.mem_cons_of_mem r hh
    · intro x hx
      rcases List.mem_cons.mp hx with hh | hh
      · exact hh ▸ hub
      · exact hall x hh


/-- Claim C4: the ranged holiday lookup shared by availability and
holiday-info selects, among the overrides containing the date, the unique row
that is minimal in the priority order (single-day first, then smallest day
span, then lowest id); consequently, when a single-day and a multi-day
override both cover a date, the single-day override alone determines both
endpoints' results. -/
theorem claim_C4 :
    (∀ (hs : List HolidayRow) (dateS : String) (D : YMD) (r : HolidayRow),
      jsParseDate dateS = some D →
      (∀ x ∈ hs, ∀ y ∈ hs, x ≠ y → x.id ≠ y.id) →
      (holidayLookup hs dateS = some r ↔
        (r ∈ hs ∧ hrQualifiesB D r = true ∧
          ∀ x ∈ hs, hrQualifiesB D x = true → x ≠ r →
            keyLtB (hrKey r) (hrKey x) = true))) ∧
    (∀ (db : Db) (now : LocalDT) (dateS : String) (D : YMD) (slotQ exQ : Option Int)
      (s m : HolidayRow),
      jsParseDate dateS = some D →
      hrQualifiesB D s = true → hrQualifiesB D m = true →
      hrEffEnd s = s.start_date → hrEffEnd m ≠ m.start_date →
      (holidayInfoServerless [s, m] dateS = holidayInfoServerless [s] dateS ∧
       holidayInfoServerless [m, s] dateS = holidayInfoServerless [s] dateS ∧
       availability { db with holidays := [s, m] } now dateS slotQ exQ =
         availability { db with holidays := [s] } now dateS slotQ exQ ∧
       availability { db with holidays := [m, s] } now dateS slotQ exQ =
         availability { db with holidays := [s] } now dateS slotQ exQ)) := by
  constructor
  · intro hs dateS D r hparse hids
    have hlk : holidayLookup hs dateS = pickMinBy (hs.filter (hrQualifiesB D)) := by
      rw [holidayLookup, hparse]
    rw [hlk]
    constructor
    · intro hpick
      have hne : hs.filter (hrQualifiesB D) ≠ [] := by
        intro h0
        rw [h0] at hpick
        cases hpick
      obtain ⟨b, hb, hbmem, hmin⟩ := pickMinBy_spec hne
      rw [hb] at hpick
      injection hpick with hbr
      subst hbr
      have hrfil := hbmem
      refine ⟨(List.mem_filter.mp hrfil).1, (List.mem_filter.mp hrfil).2, ?_⟩
      intro x hx hqx hxr
      have hxfil : x ∈ hs.filter (hrQualifiesB D) := List.mem_filter.mpr ⟨hx, hqx⟩
      have h1 : keyLtB (hrKey x) (hrKey b) = false := hmin x hxfil
      rcases h2 : keyLtB (hrKey b) (hrKey x) with _ | _
      · have hkeq : hrKey b = hrKey x := keyLtB_antisymm h2 h1
        have hideq : b.id = x.id := congrArg (fun k => k.2.2) hkeq
        exact absurd hideq.symm
          (hids x hx b (List.mem_filter.mp hrfil).1 hxr)
      · rfl
    · rintro ⟨hrm, hq, hstrict⟩
      have hrfil : r ∈ hs.filter (hrQualifiesB D) := List.mem_filter.mpr ⟨hrm, hq⟩
      obtain ⟨b, hb, hbmem, hmin⟩ := pickMinBy_spec (List.ne_nil_of_mem hrfil)
      have hbq : hrQualifiesB D b = true := (List.mem_filter.mp hbmem).2
      have hbm : b ∈ hs := (List.mem_filter.mp hbmem).1
      by_cases hbr : b = r
      · rw [hb, hbr]
      · have h1 := hstrict b hbm hbq hbr
        have h2 := hmin r hrfil
        have := keyLtB_le_of_not_lt h2 h1
        rw [keyLtB_irrefl] at this
        cases this
  · intro db now dateS D slotQ exQ s m hparse hqs hqm hsing hmult
    have hfil2 : ([s, m].filter (hrQualifiesB D)) = [s, m] := by
      simp [List.filter, hqs, hqm]
    have hfil2b : ([m, s].filter (hrQualifiesB D)) = [m, s] := by
      simp [List.filter, hqs, hqm]
    have hfil1 : ([s].filter (hrQualifiesB D)) = [s] := by
      simp [List.filter, hqs]
    have hms : keyLtB (hrKey m) (hrKey s) = false := by
      simp [keyLtB, hrKey, hsing, hmult]
    have hsm : keyLtB (hrKey s) (hrKey m) = true := by
      simp [keyLtB, hrKey, hsing, hmult]
    have hl1 : holidayLookup [s, m] dateS = some s := by
      rw [holidayLookup, hparse]
      show pickMinBy ([s, m].filter (hrQualifiesB D)) = some s
      rw [hfil2]
      simp [pickMinBy, pickStep, hms]
    have hl2 : holidayLookup [s] dateS = some s := by
      rw [holidayLookup, hparse]
      show pickMinBy ([s].filter (hrQualifiesB D)) = some s
      rw [hfil1]
      rfl
    have hl3 : holidayLookup [m, s] dateS = some s := by
      rw [holidayLookup, hparse]
      show pickMinBy ([m, s].filter (hrQualifiesB D)) = some s
      rw [hfil2b]
      simp [pickMinBy, pickStep, hsm]
    refine ⟨?_, ?_, ?_, ?_⟩
    · simp only [holidayInfoServerless, hl1, hl2]
    · simp only [holidayInfoServerless, hl3, hl2]
    · simp only [availability, hl1, hl2]
      rfl
    · simp only [availability, hl3, hl2]
      rfl

/-- Witness for claim C4: a single-day override beats a covering three-day
override in the public holiday-info lookup. -/
theorem claim_C4_witness :
    holidayInfoServerless
        [⟨2, ⟨2025, 12, 25⟩, none, "Single", none, 0, none, none⟩,
         ⟨1, ⟨2025, 12, 24⟩, some ⟨2025, 12, 26⟩, "Range", none, 1,
           some "10:00:00", some "14:00:00"⟩] "2025-12-25" =
      holidayInfoServerless
        [⟨2, ⟨2025, 12, 25⟩, none, "Single", none, 0, none, none⟩] "2025-12-25" :=
  ((claim_C4.2 ⟨[], 1, [], [], 1⟩ ⟨⟨2025, 1, 1⟩, 0⟩ "2025-12-25" ⟨2025, 12, 25⟩ none none
    ⟨2, ⟨2025, 12, 25⟩, none, "Single", none, 0, none, none⟩
    ⟨1, ⟨2025, 12, 24⟩, some ⟨2025, 12, 26⟩, "Range", none, 1,
      some "10:00:00", some "14:00:00"⟩
    (by decide) (by decide) (by decide) (by decide) (by decide))).1


/-- Claim C2: on a non-today date with an open working window, availability
returns exactly the candidate starts stepping by `slotMinutes` whose end does
not exceed the window end and whose slot interval overlaps no stored
appointment (the window and slot are real times of day: start/end are clock
times and one step from within the day keeps a two-digit hour field, i.e.
`slotMinutes ≤ 4560`).  In particular, for 09:00–17:00, 30-minute slots and
no appointments it returns the 16 half-hour starts 09:00–16:30, and with one
appointment at 10:00 for 60 minutes it excludes 10:00 and 10:30 while
keeping 09:30 and 11:00. -/
theorem claim_C2 :
    (∀ (db : Db) (now : LocalDT) (dateS : String) (slotQ exQ : Option Int) (D : YMD)
      (w : Nat) (row : BizRow) (stS enS : String) (startM endM : Nat)
      (L : List (Nat × Nat)),
      isISODate dateS = true → jsParseDate dateS = some D → D ≠ now.date →
      db.holidays.filter (hrQualifiesB D) = [] →
      jsWeekdayMonday1to7 dateS = some w →
      db.biz.find? (fun r => r.week_day == w) = some row →
      row.start_time = some stS → row.end_time = some enS →
      toHHMM stS = fmtHHMM startM → toHHMM enS = fmtHHMM endM →
      startM ≤ 1439 → endM ≤ 1439 → slotMinutesNat slotQ ≤ 4560 →
      (db.appts.filter (fun r => r.date == dateS)).map
          (fun r => (toHHMM r.time, r.duration)) = L.map (fun p => (fmtHHMM p.1, p.2)) →
      (∀ p ∈ L, p.1 < 6000 ∧ p.1 + p.2 < 6000) →
      availability db now dateS slotQ exQ =
        AvailResp.ok dateS (slotMinutesNat slotQ)
          ((specFreeSlots startM endM (slotMinutesNat slotQ) L).map fmtHHMM)
          none none none) ∧
    (∀ (db : Db) (now : LocalDT) (dateS : String) (slotQ exQ : Option Int)
      (r : HolidayRow) (stS enS : String) (startM endM : Nat) (L : List (Nat × Nat)),
      isISODate dateS = true → availIsToday now dateS = false →
      holidayLookup db.holidays dateS = some r → r.is_open = 1 →
      r.start_time = some stS → r.end_time = some enS →
      toHHMM stS = fmtHHMM startM → toHHMM enS = fmtHHMM endM →
      startM ≤ 1439 → endM ≤ 1439 → slotMinutesNat slotQ ≤ 4560 →
      (db.appts.filter (fun r => r.date == dateS)).map
          (fun r => (toHHMM r.time, r.duration)) = L.map (fun p => (fmtHHMM p.1, p.2)) →
      (∀ p ∈ L, p.1 < 6000 ∧ p.1 + p.2 < 6000) →
      availability db now dateS slotQ exQ =
        availOk dateS (slotMinutesNat slotQ)
          ((specFreeSlots startM endM (slotMinutesNat slotQ) L).map fmtHHMM)
          (some ⟨jsOrNullStr r.holiday, jsOrNullOpt r.comment, true⟩)) ∧
    (availability ⟨[], 1, [⟨6, some "09:00:00", some "17:00:00", 1⟩], [], 1⟩
        ⟨⟨2025, 1, 1⟩, 0⟩ "2025-10-11" none none =
      .ok "2025-10-11" 30
        ["09:00", "09:30", "10:00", "10:30", "11:00", "11:30", "12:00", "12:30",
         "13:00", "13:30", "14:00", "14:30", "15:00", "15:30", "16:00", "16:30"]
        none none none) ∧
    (availability ⟨[⟨1, "A", none, none, "2025-10-11", "10:00:00", 60, "c", none, 1, 0⟩],
        2, [⟨6, some "09:00:00", some "17:00:00", 1⟩], [], 1⟩
        ⟨⟨2025, 1, 1⟩, 0⟩ "2025-10-11" none none =
      .ok "2025-10-11" 30
        ["09:00", "09:30", "11:00", "11:30", "12:00", "12:30",
         "13:00", "13:30", "14:00", "14:30", "15:00", "15:30", "16:00", "16:30"]
        none none none) ∧
    ("09:30" ∈ ["09:00", "09:30", "11:00", "11:30", "12:00", "12:30",
         "13:00", "13:30", "14:00", "14:30", "15:00", "15:30", "16:00", "16:30"] ∧
     "11:00" ∈ ["09:00", "09:30", "11:00", "11:30", "12:00", "12:30",
         "13:00", "13:30", "14:00", "14:30", "15:00", "15:30", "16:00", "16:30"] ∧
     "10:00" ∉ ["09:00", "09:30", "11:00", "11:30", "12:00", "12:30",
         "13:00", "13:30", "14:00", "14:30", "15:00", "15:30", "16:00", "16:30"] ∧
     "10:30" ∉ ["09:00", "09:30", "11:00", "11:30", "12:00", "12:30",
         "13:00", "13:30", "14:00", "14:30", "15:00", "15:30", "16:00", "16:30"]) := by
  refine ⟨?_, ?_, by decide, by decide, by decide, by decide, by decide, by decide⟩
  · intro db now dateS slotQ exQ D w row stS enS startM endM L hdate hparse hnottoday hhol
      hw hfind hst hen hstV henV hsM heM hslot hap hLb
    exact availability_biz_spec db now dateS slotQ exQ D w row stS enS startM endM L hdate
      hparse hnottoday hhol hw hfind hst hen hstV henV hsM heM hslot hap hLb
  · intro db now dateS slotQ exQ r stS enS startM endM L hdate hnottoday hpick hopen hst
      hen hstV henV hsM heM hslot hap hLb
    exact availability_holiday_open_spec db now dateS slotQ exQ r stS enS startM endM L
      hdate hnottoday hpick hopen hst hen hstV henV hsM heM hslot hap hLb

/-- Witness for claim C2's universal part on an empty appointment table. -/
theorem claim_C2_witness :
    availability ⟨[], 5, [⟨6, some "08:00:00", some "12:00:00", 1⟩], [], 1⟩
        ⟨⟨2025, 2, 2⟩, 0⟩ "2025-10-11" none none =
      AvailResp.ok "2025-10-11" (slotMinutesNat none)
        ((specFreeSlots 480 720 (slotMinutesNat none) []).map fmtHHMM) none none none :=
  claim_C2.1 ⟨[], 5, [⟨6, some "08:00:00", some "12:00:00", 1⟩], [], 1⟩
    ⟨⟨2025, 2, 2⟩, 0⟩ "2025-10-11" none none ⟨2025, 10, 11⟩ 6
    ⟨6, some "08:00:00", some "12:00:00", 1⟩ "08:00:00" "12:00:00" 480 720 []
    (by decide) (by decide) (by decide) rfl (by decide) (by decide) rfl rfl
    (by decide) (by decide) (by decide) (by decide) (by decide) rfl
    (fun p hp => absurd hp (List.not_mem_nil p))

/-- Claim C3 is contradicted by the code: on the same stored `holiday_hours`
rows the serverless variant's `GET /api/holiday-info` answers the applicable
override while the persistent-listener variant's query names a column the
table does not have and therefore answers 500, so the two deployment
variants do not expose identical route behavior. -/
theorem claim_C3 :
    holidayInfoServerless [listenerDivergenceRow] "2025-12-25" =
      .found "Christmas" none false none none ∧
    holidayInfoListener [listenerDivergenceRow] "2025-12-25" = .dbError ∧
    holidayInfoServerless [listenerDivergenceRow] "2025-12-25" ≠
      holidayInfoListener [listenerDivergenceRow] "2025-12-25" := by
  refine ⟨by decide, rfl, by decide⟩

/-- Claim C9: when no holiday override applies, availability derives the
working window from the weekday row's `start_time`/`end_time` only and never
consults `is_open`: the closed weekday still yields the full free-slot list
of its window, and rewriting `is_open` arbitrarily (for example marking the
weekday open) cannot change any availability response. -/
theorem claim_C9 (db : Db) (now : LocalDT) (dateS : String) (slotQ exQ : Option Int)
    (D : YMD) (w : Nat) (row : BizRow) (stS enS : String) (startM endM : Nat)
    (L : List (Nat × Nat))
    (hclosed : row.is_open = 0)
    (hdate : isISODate dateS = true)
    (hparse : jsParseDate dateS = some D)
    (hnottoday : D ≠ now.date)
    (hhol : db.holidays.filter (hrQualifiesB D) = [])
    (hw : jsWeekdayMonday1to7 dateS = some w)
    (hfind : db.biz.find? (fun r => r.week_day == w) = some row)
    (hst : row.start_time = some stS) (hen : row.end_time = some enS)
    (hstV : toHHMM stS = fmtHHMM startM) (henV : toHHMM enS = fmtHHMM endM)
    (hsM : startM ≤ 1439) (heM : endM ≤ 1439)
    (hslot : slotMinutesNat slotQ ≤ 4560)
    (hap : (db.appts.filter (fun r => r.date == dateS)).map
        (fun r => (toHHMM r.time, r.duration)) = L.map (fun p => (fmtHHMM p.1, p.2)))
    (hLb : ∀ p ∈ L, p.1 < 6000 ∧ p.1 + p.2 < 6000) :
    availability db now dateS slotQ exQ =
      AvailResp.ok dateS (slotMinutesNat slotQ)
        ((specFreeSlots startM endM (slotMinutesNat slotQ) L).map fmtHHMM)
        none none none ∧
    (∀ g : BizRow → Nat,
      availability { db with biz := db.biz.map (fun r => { r with is_open := g r }) }
        now dateS slotQ exQ = availability db now dateS slotQ exQ) :=
  ⟨availability_biz_spec db now dateS slotQ exQ D w row stS enS startM endM L hdate
    hparse hnottoday hhol hw hfind hst hen hstV henV hsM heM hslot hap hLb,
   fun g => availability_is_open_blind db now dateS slotQ exQ g⟩

/-- Witness for claim C9: a closed Saturday with a 09:00–17:00 window still
yields the full slot list, and marking it open changes nothing. -/
theorem claim_C9_witness :
    availability ⟨[], 1, [⟨6, some "09:00:00", some "17:00:00", 0⟩], [], 1⟩
        ⟨⟨2025, 3, 3⟩, 0⟩ "2025-10-11" none none =
      AvailResp.ok "2025-10-11" (slotMinutesNat none)
        ((specFreeSlots 540 1020 (slotMinutesNat none) []).map fmtHHMM) none none none ∧
    availability ⟨[], 1, [⟨6, some "09:00:00", some "17:00:00", 1⟩], [], 1⟩
        ⟨⟨2025, 3, 3⟩, 0⟩ "2025-10-11" none none =
      availability ⟨[], 1, [⟨6, some "09:00:00", some "17:00:00", 0⟩], [], 1⟩
        ⟨⟨2025, 3, 3⟩, 0⟩ "2025-10-11" none none := by
  have h := claim_C9 ⟨[], 1, [⟨6, some "09:00:00", some "17:00:00", 0⟩], [], 1⟩
    ⟨⟨2025, 3, 3⟩, 0⟩ "2025-10-11" none none ⟨2025, 10, 11⟩ 6
    ⟨6, some "09:00:00", some "17:00:00", 0⟩ "09:00:00" "17:00:00" 540 1020 []
    rfl (by decide) (by decide) (by decide) rfl (by decide) (by decide) rfl rfl
    (by decide) (by decide) (by decide) (by decide) (by decide) rfl
    (fun p hp => absurd hp (List.not_mem_nil p))
  refine ⟨h.1, ?_⟩
  have h2 := h.2 (fun _ => 1)
  exact h2

end AB
